import Mathlib

/-!
Go-Asteroids: the game logic of `main.go`

A shallow embedding of the simulation part of `src/main.go` (entity model,
asteroid step, spawner, collision detection, game-mode state machine) and
theorems about it.

Modelling conventions, used throughout:

* `float64` values are rationals (`ℚ`) and the arithmetic on them is exact.
  Where a statement depends on the rounding of float64 arithmetic, the code is
  taken with every operation rounded to the nearest float64 (`fl64`):
  `Asteroid.Update64` is the asteroid step and `newMiniAsteroid64` the spawn in
  that arithmetic. Go `int` values are `Int`: the counters and the health stay
  far from the 64-bit limits, so wrap-around is not modelled.
* A slice `[]*Asteroid` is a `List (Option Asteroid)`; `none` is a nil pointer.
  Capacity is not modelled: the program never keeps a second reference to a
  slice it reslices or appends to.
* The package-level variables `AsteroidsInGame`, `miniAsteroidsInGame` and
  `MinDifficulty` are fields of `Game`. The two goroutine counters
  (`generationGoroutines`, `updateGoroutines`), the images, the draw options
  and the star field only feed the display and are left out.
* A run-time panic (index out of range, nil dereference, `make` with a length
  above the capacity) is `Outcome.panic`; `os.Exit` is `Outcome.exit`.
* Everything the program reads from outside is an explicit input (`Env`): the
  pressed keys, the values returned by `math/rand`, and, for the one loop whose
  result depends on it, the goroutine interleaving.
* Goroutines that are joined by a `sync.WaitGroup` and touch disjoint data
  (one list slot each) are run in index order.
* A loop whose bound changes while it runs is a function with an explicit
  iteration bound; `hitLoop_bound_irrelevant` and its siblings show that the
  bound passed is never the reason the loop ends.

The definitions come first (the program, then the vocabulary of the
statements and the sample states), the theorems after them, claim by claim.
-/

namespace GoAsteroids

/-! ## Constants -/

/-- Game mode, `type Mode int`. -/
abbrev Mode := Int

abbrev ModeStart : Mode := 0
abbrev ModeLevels : Mode := 1
abbrev ModePlay : Mode := 3
abbrev ModePause : Mode := 4
abbrev ModeOver : Mode := 5
abbrev ModeWon : Mode := 6

abbrev windowWidth : Int := 800
abbrev windowHeight : Int := 600
abbrev shipWidth : Int := 50
abbrev shipHeight : Int := 80
abbrev asteroidWidth : Int := 100
abbrev asteroidHeight : Int := 80
abbrev miniAsteroidWidth : Int := 50
abbrev miniAsteroidHeight : Int := 40
abbrev maxAngle : Int := 256
abbrev maxDifficulty : Int := 40

/-- Size of the rocket image, `ebiten.NewImage(2, 10)` in `loadAssets`; this is
what `g.rocket.Size()` returns in `hit` and `miniHit`. -/
abbrev rocketSize : Int × Int := (2, 10)

/-- The keys `Game.Update` tests for; any other key is `other`. -/
inductive Key where
  | KeySpace | KeyQ | Key1 | Key2 | Key3
  | KeyRight | KeyLeft | KeyDown | KeyUp
  | KeyA | KeyS | KeyW | KeyD
  | KeyP | KeyR | KeyM
  | other (code : Nat)
deriving DecidableEq

open Key

/-! ## Data model -/

/-- The record `type Asteroid struct`. -/
structure Asteroid where
  width : Int
  height : Int
  x : ℚ
  y : ℚ
  vx : ℚ
  vy : ℚ
  angle : ℚ
deriving DecidableEq

/-- The record `type Asteroids struct`. -/
structure Asteroids where
  asteroidsList : List (Option Asteroid)
deriving DecidableEq

/-- The record `type Game struct`, with the package-level counters added. -/
structure Game where
  asteroidXPos : ℚ
  asteroidYPos : ℚ
  shipXPos : ℚ
  shipYPos : ℚ
  rocketXPos : ℚ
  rocketYPos : ℚ
  mode : Mode
  shooting : Bool
  playerHealth : Int
  asteroids : Asteroids
  miniAsteroids : Asteroids
  inited : Bool
  AsteroidsInGame : Int
  miniAsteroidsInGame : Int
  MinDifficulty : Int
deriving DecidableEq

/-- How a call ends: normally with a value, by `os.Exit`, or by a panic. -/
inductive Outcome (α : Type) where
  | ok (val : α)
  | exit
  | panic
deriving DecidableEq

/-- Sequencing: the continuation runs only after a normal return. -/
def Outcome.bind {α β : Type} (r : Outcome α) (f : α → Outcome β) : Outcome β :=
  match r with
  | .ok a => f a
  | .exit => .exit
  | .panic => .panic

/-- The five `math/rand` results one goroutine of `generateAsteroids` draws, in
call order: `Intn(windowWidth-w)`, `Intn((windowHeight-h)/2)`, `Intn(2)`,
`Intn(2)`, `Intn(maxAngle)`. -/
structure GenDraw where
  x : Int
  y : Int
  sx : Int
  sy : Int
  a : Int

/-- The five `math/rand` results one goroutine of the split-off loop draws, in
call order: `Float64()`, `Float64()`, `Intn(2)`, `Intn(2)`, `Intn(maxAngle)`. -/
structure SpawnDraw where
  fx : ℚ
  fy : ℚ
  sx : Int
  sy : Int
  a : Int

/-- The contract of `math/rand` for a `GenDraw`: `Intn(n)` lies in `[0, n)`. -/
def GenDraw.valid (d : GenDraw) : Prop :=
  0 ≤ d.x ∧ d.x < windowWidth - asteroidWidth ∧
  0 ≤ d.y ∧ d.y < (windowHeight - asteroidHeight) / 2 ∧
  0 ≤ d.sx ∧ d.sx < 2 ∧ 0 ≤ d.sy ∧ d.sy < 2 ∧ 0 ≤ d.a ∧ d.a < maxAngle

/-- The contract of `math/rand` for a `SpawnDraw`: `Float64()` lies in
`[0, 1)`, `Intn(n)` in `[0, n)`. -/
def SpawnDraw.valid (d : SpawnDraw) : Prop :=
  0 ≤ d.fx ∧ d.fx < 1 ∧ 0 ≤ d.fy ∧ d.fy < 1 ∧
  0 ≤ d.sx ∧ d.sx < 2 ∧ 0 ≤ d.sy ∧ d.sy < 2 ∧ 0 ≤ d.a ∧ d.a < maxAngle

/-- What one `Game.Update` reads from outside the program.

* `keys`: the result of `inpututil.PressedKeys()`.
* `gen i`: the random numbers drawn by the goroutine that generates large
  asteroid `i`.
* `split i`: the random numbers drawn by the goroutine that fills small-asteroid
  slot `i`.
* `sched k`: in the split-off loop, how many of the `k` goroutines launched so
  far have already incremented `miniAsteroidsInGame` when the loop condition is
  evaluated again (capped at `k`). The loop condition reads that variable
  without synchronisation, so this is the only place where the interleaving
  changes the result. `fun _ => 0` is the interleaving in which the launched
  goroutines run only once the loop has reached `wg.Wait()`. -/
structure Env where
  keys : List Key
  gen : Nat → GenDraw
  split : Nat → SpawnDraw
  sched : Nat → Nat

/-! ## Asteroid step -/

/-- The method `func (s *Asteroid) Update()`. -/
def Asteroid.Update (s : Asteroid) : Asteroid :=
  let s := { s with x := s.x + s.vx }
  let s := { s with y := s.y + s.vy }
  let s :=
    if s.x < 0 then { s with x := -s.x, vx := -s.vx }
    else if (windowWidth : ℚ) - (s.width : ℚ) ≤ s.x then
      { s with x := 2 * ((windowWidth : ℚ) - (s.width : ℚ)) - s.x, vx := -s.vx }
    else s
  let s :=
    if s.y < 0 then { s with y := -s.y, vy := -s.vy }
    else if (windowHeight : ℚ) - (s.height : ℚ) ≤ s.y then
      { s with y := 2 * ((windowHeight : ℚ) - (s.height : ℚ)) - s.y, vy := -s.vy }
    else s
  let s := { s with angle := s.angle + 1 }
  if s.angle = (maxAngle : ℚ) then { s with angle := 0 } else s

/-- The loop body shared by `Asteroids.Update` and `Asteroids.miniUpdate`,
`s.asteroidsList[i].Update()` for `i = 0 .. n-1`: the list after the first `n`
slots have been stepped. The goroutines touch one slot each, so they are run in
index order; a slot that is out of range or nil panics. -/
def Asteroids.updateUpTo (s : Asteroids) : Nat → Outcome Asteroids
  | 0 => .ok s
  | n + 1 =>
    (Asteroids.updateUpTo s n).bind fun s' =>
      match s'.asteroidsList[n]? with
      | some (some a) => .ok ⟨s'.asteroidsList.set n (some a.Update)⟩
      | _ => .panic

/-- The method `func (s *Asteroids) Update()`; `AsteroidsInGame` is the global
it reads. -/
def Asteroids.Update (s : Asteroids) (AsteroidsInGame : Int) : Outcome Asteroids :=
  s.updateUpTo AsteroidsInGame.toNat

/-- The method `func (s *Asteroids) miniUpdate()`; `miniAsteroidsInGame` is the
global it reads. -/
def Asteroids.miniUpdate (s : Asteroids) (miniAsteroidsInGame : Int) : Outcome Asteroids :=
  s.updateUpTo miniAsteroidsInGame.toNat

/-! ## Generation -/

/-- The asteroid built by goroutine `i` of `generateAsteroids`. -/
def newAsteroid (d : GenDraw) : Asteroid :=
  { width := asteroidWidth
    height := asteroidHeight
    x := (d.x : ℚ)
    y := (d.y : ℚ)
    vx := ((2 * d.sx - 1 : Int) : ℚ)
    vy := ((2 * d.sy - 1 : Int) : ℚ)
    angle := (d.a : ℚ) }

/-- The function `generateAsteroids`: for every index of the large list a
goroutine stores a fresh asteroid in that slot; all are joined before the
function returns. -/
def generateAsteroids (g : Game) (e : Env) : Game :=
  { g with
    asteroids :=
      ⟨(List.range g.asteroids.asteroidsList.length).foldl
        (fun l i => l.set i (some (newAsteroid (e.gen i)))) g.asteroids.asteroidsList⟩ }

/-- The statement pair that puts the rocket back on the ship,
`g.rocketXPos = g.shipXPos + float64(shipWidth/2) - 1.5` and
`g.rocketYPos = g.shipYPos + float64(shipHeight/2)`; the source repeats it
inline at every reset. -/
def Game.resetRocket (g : Game) : Game :=
  { g with
    rocketXPos := g.shipXPos + ((shipWidth / 2 : Int) : ℚ) - 1.5
    rocketYPos := g.shipYPos + ((shipHeight / 2 : Int) : ℚ) }

/-- The method `func (g *Game) init(difficulty int)`. `make` panics when the
length is negative or above the capacity. -/
def Game.init (g : Game) (difficulty : Int) (e : Env) : Outcome Game :=
  let g := { g with playerHealth := 100, MinDifficulty := difficulty }
  if difficulty < 0 ∨ maxDifficulty < difficulty then .panic
  else
    let g := { g with asteroids := ⟨List.replicate difficulty.toNat none⟩ }
    let g := { g with miniAsteroids := ⟨List.replicate maxDifficulty.toNat none⟩ }
    let g := { g with AsteroidsInGame := (g.asteroids.asteroidsList.length : Int) }
    let g := { g with miniAsteroidsInGame := 0 }
    let g := { g with shipXPos := ((windowWidth / 2 : Int) : ℚ) - ((shipWidth / 2 : Int) : ℚ) }
    let g := { g with shipYPos := (windowHeight : ℚ) - ((shipHeight * 2 : Int) : ℚ) }
    let g := g.resetRocket
    let g := generateAsteroids g e
    .ok { g with inited := true }

/-! ## Collision detection -/

/-- The function `blowUp`: `append(asteroids[:index], asteroids[index+1:]...)`. -/
def blowUp (asteroids : List (Option Asteroid)) (index : Nat) : List (Option Asteroid) :=
  asteroids.take index ++ asteroids.drop (index + 1)

/-- The overlap test of `hit`: the rocket box against a large asteroid. -/
def Game.rocketHits (g : Game) (a : Asteroid) : Prop :=
  g.rocketXPos < a.x + (asteroidWidth : ℚ) ∧
  g.rocketXPos + (rocketSize.1 : ℚ) > a.x ∧
  g.rocketYPos < a.y + (asteroidHeight : ℚ) ∧
  g.rocketYPos + (rocketSize.2 : ℚ) > a.y

instance (g : Game) (a : Asteroid) : Decidable (g.rocketHits a) := by
  unfold Game.rocketHits; infer_instance

/-- The overlap test of `miniHit`: the rocket box against a small asteroid. -/
def Game.rocketHitsMini (g : Game) (a : Asteroid) : Prop :=
  g.rocketXPos < a.x + (miniAsteroidWidth : ℚ) ∧
  g.rocketXPos + (rocketSize.1 : ℚ) > a.x ∧
  g.rocketYPos < a.y + (miniAsteroidHeight : ℚ) ∧
  g.rocketYPos + (rocketSize.2 : ℚ) > a.y

instance (g : Game) (a : Asteroid) : Decidable (g.rocketHitsMini a) := by
  unfold Game.rocketHitsMini; infer_instance

/-- The loop of `hit`, from index `i` on, with `x, y` the position recorded so
far. The first argument bounds the number of iterations; `hit` passes
`AsteroidsInGame`, which the loop can never use up because every iteration
raises `i` and never raises `AsteroidsInGame`. -/
def Game.hitLoop : Nat → Nat → Game → ℚ → ℚ → Outcome (Game × ℚ × ℚ)
  | 0, _, g, x, y => .ok (g, x, y)
  | fuel + 1, i, g, x, y =>
    if (i : Int) < g.AsteroidsInGame then
      match g.asteroids.asteroidsList[i]? with
      | some (some a) =>
        if g.rocketHits a then
          let g := { g with shooting := false }
          let g := g.resetRocket
          let g := { g with asteroids := ⟨blowUp g.asteroids.asteroidsList i⟩ }
          let g := { g with AsteroidsInGame := g.AsteroidsInGame - 1 }
          Game.hitLoop fuel (i + 1) g a.x a.y
        else Game.hitLoop fuel (i + 1) g x y
      | _ => .panic
    else .ok (g, x, y)

/-- The method `func (g *Game) hit() (float64, float64)`: the new state and the
returned pair. -/
def Game.hit (g : Game) : Outcome (Game × ℚ × ℚ) :=
  Game.hitLoop g.AsteroidsInGame.toNat 0 g (-1) (-1)

/-- The loop of `miniHit`, from index `i` on; the first argument bounds the
number of iterations as in `hitLoop`. -/
def Game.miniHitLoop : Nat → Nat → Game → Outcome Game
  | 0, _, g => .ok g
  | fuel + 1, i, g =>
    if (i : Int) < g.miniAsteroidsInGame then
      match g.miniAsteroids.asteroidsList[i]? with
      | some (some a) =>
        if g.rocketHitsMini a then
          let g := { g with shooting := false }
          let g := g.resetRocket
          let g := { g with miniAsteroids := ⟨blowUp g.miniAsteroids.asteroidsList i⟩ }
          let g := { g with miniAsteroidsInGame := g.miniAsteroidsInGame - 1 }
          Game.miniHitLoop fuel (i + 1) g
        else Game.miniHitLoop fuel (i + 1) g
      | _ => .panic
    else .ok g

/-- The method `func (g *Game) miniHit()`. -/
def Game.miniHit (g : Game) : Outcome Game :=
  Game.miniHitLoop g.miniAsteroidsInGame.toNat 0 g

/-- The function `reduce_health`: one decrement under the mutex. The caller
waits for it at once, so it runs as a plain call. -/
def reduce_health (g : Game) : Game :=
  { g with playerHealth := g.playerHealth - 1 }

/-- The overlap test of `ship_hit_asteroid`. -/
def Game.shipHits (g : Game) (a : Asteroid) : Prop :=
  g.shipXPos < a.x + (asteroidWidth : ℚ) ∧
  g.shipXPos + (shipWidth : ℚ) > a.x ∧
  g.shipYPos < a.y + (asteroidHeight : ℚ) ∧
  (shipHeight : ℚ) + g.shipYPos > a.y

instance (g : Game) (a : Asteroid) : Decidable (g.shipHits a) := by
  unfold Game.shipHits; infer_instance

/-- The overlap test of `ship_hit_mini_asteroid`. -/
def Game.shipHitsMini (g : Game) (a : Asteroid) : Prop :=
  g.shipXPos < a.x + (miniAsteroidWidth : ℚ) ∧
  g.shipXPos + (shipWidth : ℚ) > a.x ∧
  g.shipYPos < a.y + (miniAsteroidHeight : ℚ) ∧
  (shipHeight : ℚ) + g.shipYPos > a.y

instance (g : Game) (a : Asteroid) : Decidable (g.shipHitsMini a) := by
  unfold Game.shipHitsMini; infer_instance

/-- The loop of `ship_hit_asteroid` for `i = 0 .. n-1`. -/
def Game.shipHitUpTo (g : Game) : Nat → Outcome Game
  | 0 => .ok g
  | n + 1 =>
    (Game.shipHitUpTo g n).bind fun g' =>
      match g'.asteroids.asteroidsList[n]? with
      | some (some a) => if g'.shipHits a then .ok (reduce_health g') else .ok g'
      | _ => .panic

/-- The method `func (g *Game) ship_hit_asteroid()`. -/
def Game.ship_hit_asteroid (g : Game) : Outcome Game :=
  g.shipHitUpTo g.AsteroidsInGame.toNat

/-- The loop of `ship_hit_mini_asteroid` for `i = 0 .. n-1`. -/
def Game.shipHitMiniUpTo (g : Game) : Nat → Outcome Game
  | 0 => .ok g
  | n + 1 =>
    (Game.shipHitMiniUpTo g n).bind fun g' =>
      match g'.miniAsteroids.asteroidsList[n]? with
      | some (some a) => if g'.shipHitsMini a then .ok (reduce_health g') else .ok g'
      | _ => .panic

/-- The method `func (g *Game) ship_hit_mini_asteroid()`. -/
def Game.ship_hit_mini_asteroid (g : Game) : Outcome Game :=
  g.shipHitMiniUpTo g.miniAsteroidsInGame.toNat

/-- The method `func (g *Game) collissonCheck()`. -/
def Game.collissonCheck (g : Game) : Outcome Game :=
  g.ship_hit_asteroid.bind Game.ship_hit_mini_asteroid

/-! ## Spawn on destruction -/

/-- The asteroid built by one goroutine of the split-off loop in `Game.Update`
(the source sets both `w` and `h` from `miniAsteroidWidth`). -/
def newMiniAsteroid (x y : ℚ) (d : SpawnDraw) : Asteroid :=
  { width := miniAsteroidWidth
    height := miniAsteroidWidth
    x := x + d.fx * (500 - 400)
    y := y + d.fy * (500 - 400)
    vx := ((3 * d.sx - 1 : Int) : ℚ)
    vy := ((2 * d.sy - 1 : Int) : ℚ)
    angle := (d.a : ℚ) }

/-- The split-off loop of `Game.Update`,
`for i := miniAsteroidsInGame; i < miniAsteroidsInGame+2 && i < maxDifficulty; i++`,
after `k` goroutines have been launched; `m` is the value of
`miniAsteroidsInGame` when the loop started, so `i = m + k`.

Each goroutine stores a new asteroid in slot `i` and adds one to
`miniAsteroidsInGame`; all of them have finished when `wg.Wait()` returns, so
the state carried here already holds their effects. The loop condition reads
`miniAsteroidsInGame` while they run: the value it sees after `k` launches is
`m + min (e.sched k) k`. The first argument bounds the number of iterations;
the loop stops at `i = maxDifficulty` at the latest. -/
def Game.spawnLoop (e : Env) (x y : ℚ) (m : Int) : Nat → Nat → Game → Outcome Game
  | 0, _, g => .ok g
  | fuel + 1, k, g =>
    let i : Int := m + (k : Int)
    if i < m + ((min (e.sched k) k : Nat) : Int) + 2 ∧ i < maxDifficulty then
      if 0 ≤ i ∧ i.toNat < g.miniAsteroids.asteroidsList.length then
        let a := newMiniAsteroid x y (e.split i.toNat)
        let g := { g with miniAsteroids := ⟨g.miniAsteroids.asteroidsList.set i.toNat (some a)⟩ }
        let g := { g with miniAsteroidsInGame := g.miniAsteroidsInGame + 1 }
        Game.spawnLoop e x y m fuel (k + 1) g
      else .panic
    else .ok g

/-- The block of `Game.Update` that follows `x, y := g.hit()`: when a hit was
reported (`x != -1 || y != -1`) the split-off loop runs and is joined. -/
def Game.splitOff (g : Game) (e : Env) (x y : ℚ) : Outcome Game :=
  if x ≠ -1 ∨ y ≠ -1 then
    Game.spawnLoop e x y g.miniAsteroidsInGame (maxDifficulty - g.miniAsteroidsInGame).toNat 0 g
  else .ok g

/-! ## The update function -/

/-- Run a key handler over the pressed keys in order,
`for _, x := range inpututil.PressedKeys()`. -/
def forKeys (f : Game → Key → Outcome Game) : Game → List Key → Outcome Game
  | g, [] => .ok g
  | g, x :: xs => (f g x).bind fun g' => forKeys f g' xs

/-- Key handling in `case ModeStart`. -/
def Game.startKey (g : Game) (x : Key) : Outcome Game :=
  if x = KeySpace then .ok { g with mode := ModeLevels }
  else if x = KeyQ then .exit
  else .ok g

/-- The body shared by the three level keys: `if !g.inited` then `g.init(d)`
and `g.mode = ModePlay`. -/
def Game.startLevel (g : Game) (e : Env) (d : Int) : Outcome Game :=
  if !g.inited then (g.init d e).bind fun g' => .ok { g' with mode := ModePlay }
  else .ok g

/-- Key handling in `case ModeLevels`. -/
def Game.levelsKey (e : Env) (g : Game) (x : Key) : Outcome Game :=
  if x = Key1 then g.startLevel e 5
  else if x = Key2 then g.startLevel e 10
  else if x = Key3 then g.startLevel e 20
  else .ok g

/-- Key handling in `case ModePlay` (the second `KeyRight` branch of the source
can never be taken and is kept for fidelity). -/
def Game.playKey (g : Game) (x : Key) : Game :=
  if x = KeyRight then { g with shipXPos := g.shipXPos + 10, rocketXPos := g.rocketXPos + 10 }
  else if x = KeyLeft then { g with shipXPos := g.shipXPos - 10, rocketXPos := g.rocketXPos - 10 }
  else if x = KeyDown then { g with shipYPos := g.shipYPos + 10, rocketYPos := g.rocketYPos + 10 }
  else if x = KeyUp then { g with shipYPos := g.shipYPos - 4, rocketYPos := g.rocketYPos - 4 }
  else if x = KeyRight then { g with shipXPos := g.shipXPos + 10, rocketXPos := g.rocketXPos + 10 }
  else if x = KeyA then { g with shipXPos := g.shipXPos - 10, rocketXPos := g.rocketXPos - 10 }
  else if x = KeyS then { g with shipYPos := g.shipYPos + 10, rocketYPos := g.rocketYPos + 10 }
  else if x = KeyW then { g with shipYPos := g.shipYPos - 4, rocketYPos := g.rocketYPos - 4 }
  else if x = KeyD then { g with shipXPos := g.shipXPos + 10, rocketXPos := g.rocketXPos + 10 }
  else if x = KeySpace then { g with shooting := true }
  else if x = KeyP then { g with mode := ModePause }
  else g

/-- Key handling in `case ModePause`. -/
def Game.pauseKey (g : Game) (x : Key) : Outcome Game :=
  if x = KeyR then .ok { g with mode := ModePlay }
  else if x = KeyQ then .exit
  else if x = KeyM then .ok { g with inited := false, mode := ModeStart }
  else .ok g

/-- Key handling in `case ModeOver`. -/
def Game.overKey (g : Game) (x : Key) : Outcome Game :=
  if x = KeyR then
    .ok { g with miniAsteroids := ⟨g.miniAsteroids.asteroidsList.take 0⟩, mode := ModeLevels }
  else if x = KeyQ then .exit
  else .ok g

/-- Key handling in `case ModeWon`. -/
def Game.wonKey (g : Game) (x : Key) : Outcome Game :=
  if x = KeyP then .ok { g with mode := ModeStart }
  else if x = KeyQ then .exit
  else .ok g

/-- The four boundary clamps of the ship in `case ModePlay`. -/
def Game.clampShip (g : Game) : Game :=
  let g :=
    if g.shipXPos ≥ (windowWidth : ℚ) - (shipWidth : ℚ) then
      Game.resetRocket { g with shipXPos := (windowWidth : ℚ) - (shipWidth : ℚ) }
    else g
  let g := if g.shipXPos ≤ 0 then Game.resetRocket { g with shipXPos := 0 } else g
  let g := if g.shipYPos ≤ 0 then Game.resetRocket { g with shipYPos := 0 } else g
  if g.shipYPos ≥ (windowHeight : ℚ) - (shipHeight : ℚ) then
    Game.resetRocket { g with shipYPos := (windowHeight : ℚ) - (shipHeight : ℚ) }
  else g

/-- The method `func (g *Game) shootRocket()`. -/
def Game.shootRocket (g : Game) : Game :=
  { g with rocketYPos := g.rocketYPos - 15 }

/-- The three rocket statements of `case ModePlay` that precede `g.hit()`:
advance while shooting, reset at the top edge, reset against the box at
`(asteroidXPos, asteroidYPos)`. -/
def Game.rocketStep (g : Game) : Game :=
  let g := if g.shooting then g.shootRocket else g
  let g := if g.rocketYPos ≤ 0 then Game.resetRocket { g with shooting := false } else g
  if g.rocketYPos ≤ g.asteroidYPos + (asteroidHeight : ℚ) ∧
      g.rocketXPos ≤ g.asteroidXPos + (asteroidHeight : ℚ) ∧
      g.rocketXPos ≥ g.asteroidXPos then
    Game.resetRocket { g with shooting := false }
  else g

/-- The part of `case ModePlay` before `g.hit()`: keys, clamps, rocket. -/
def Game.playMove (g : Game) (keys : List Key) : Game :=
  Game.rocketStep (Game.clampShip (keys.foldl Game.playKey g))

/-- The part of `case ModePlay` from `g.hit()` to `g.collissonCheck()`. -/
def Game.playCollide (g : Game) (e : Env) : Outcome Game :=
  (Game.hit (g.playMove e.keys)).bind fun r =>
    (Game.splitOff r.1 e r.2.1 r.2.2).bind fun g1 =>
      g1.miniHit.bind Game.collissonCheck

/-- The end of `case ModePlay`: both asteroid lists are stepped, then the loss
check and the win check are made, in that order. -/
def Game.playFinish (g : Game) : Outcome Game :=
  (g.asteroids.Update g.AsteroidsInGame).bind fun s =>
    let g := { g with asteroids := s }
    (g.miniAsteroids.miniUpdate g.miniAsteroidsInGame).bind fun s' =>
      let g := { g with miniAsteroids := s' }
      let g := if g.playerHealth ≤ 0 then { g with mode := ModeOver } else g
      let g :=
        if g.AsteroidsInGame = 0 ∧ g.miniAsteroidsInGame = 0 then { g with mode := ModeWon }
        else g
      .ok g

/-- The method `func (g *Game) Update() error`. -/
def Game.Update (g : Game) (e : Env) : Outcome Game :=
  if g.mode = ModeStart then forKeys Game.startKey g e.keys
  else if g.mode = ModeLevels then forKeys (Game.levelsKey e) g e.keys
  else if g.mode = ModePlay then (g.playCollide e).bind Game.playFinish
  else if g.mode = ModePause then forKeys Game.pauseKey g e.keys
  else if g.mode = ModeOver then forKeys Game.overKey { g with inited := false } e.keys
  else if g.mode = ModeWon then forKeys Game.wonKey { g with inited := false } e.keys
  else .ok g

/-- The state `main` starts from: `g := &Game{}` with `mode = ModeStart` and
`shooting = false`; every other field has its zero value. -/
def Game.initial : Game :=
  { asteroidXPos := 0, asteroidYPos := 0, shipXPos := 0, shipYPos := 0
    rocketXPos := 0, rocketYPos := 0, mode := ModeStart, shooting := false
    playerHealth := 0, asteroids := ⟨[]⟩, miniAsteroids := ⟨[]⟩, inited := false
    AsteroidsInGame := 0, miniAsteroidsInGame := 0, MinDifficulty := 0 }

/-! ## The asteroid step and the spawn in float64 arithmetic -/

/-- The integer nearest to `n / d` (`d > 0`), ties going to the even one: the
rounding of IEEE 754 arithmetic. -/
def roundHalfEven (n : Int) (d : Nat) : Int :=
  let f := n / (d : Int)
  let r := n % (d : Int)
  if 2 * r < (d : Int) then f
  else if (d : Int) < 2 * r then f + 1
  else if f % 2 = 0 then f
  else f + 1

/-- Halving `n` until it is below 2, at most `fuel` times: the number of
halvings. -/
def log2Loop : Nat → Nat → Nat
  | 0, _ => 0
  | fuel + 1, n => if 2 ≤ n then log2Loop fuel (n / 2) + 1 else 0

/-- The position of the leading bit of `n`: `2^(log2Nat n) <= n < 2^(log2Nat n + 1)`
for `n > 0`. -/
def log2Nat (n : Nat) : Nat :=
  log2Loop n n

/-- The exponent `e` with `2^e <= |q| < 2^(e+1)`, for `q` other than 0. -/
def binade (q : ℚ) : Int :=
  let n := q.num.natAbs
  let e : Int := (log2Nat n : Int) - (log2Nat q.den : Int)
  if 0 ≤ e then (if 2 ^ e.toNat * q.den ≤ n then e else e - 1)
  else (if q.den ≤ 2 ^ (-e).toNat * n then e else e - 1)

/-- The float64 nearest to the rational `q`, ties to even: the value an IEEE 754
binary64 operation returns when its exact result is `q` (53 significant bits,
smallest exponent -1022, so a unit in the last place of `2^(max e (-1022) - 52)`
in the binade `e` of `q`). Overflow to infinity is not modelled: this is for
`|q| < 2^1024`. -/
def fl64 (q : ℚ) : ℚ :=
  if q = 0 then 0
  else
    let p : Int := max (binade q) (-1022) - 52
    if 0 ≤ p then
      ((roundHalfEven q.num (q.den * 2 ^ p.toNat) * (2 ^ p.toNat : Nat) : Int) : ℚ)
    else
      (roundHalfEven (q.num * (2 ^ (-p).toNat : Nat)) q.den : ℚ) / ((2 ^ (-p).toNat : Nat) : ℚ)

/-- The method `func (s *Asteroid) Update()` with the float64 rounding of each
arithmetic operation: `Asteroid.Update` with `fl64` around every sum, difference
and product, and around the conversion `float64(s.width)`. Negation and
comparison are exact in float64, and so is the doubling in `2*mx`, so that a
fused multiply-add gives the same `2*mx - s.x`. -/
def Asteroid.Update64 (s : Asteroid) : Asteroid :=
  let s := { s with x := fl64 (s.x + s.vx) }
  let s := { s with y := fl64 (s.y + s.vy) }
  let s :=
    if s.x < 0 then { s with x := -s.x, vx := -s.vx }
    else if fl64 ((windowWidth : ℚ) - fl64 (s.width : ℚ)) ≤ s.x then
      { s with
        x := fl64 (fl64 (2 * fl64 ((windowWidth : ℚ) - fl64 (s.width : ℚ))) - s.x)
        vx := -s.vx }
    else s
  let s :=
    if s.y < 0 then { s with y := -s.y, vy := -s.vy }
    else if fl64 ((windowHeight : ℚ) - fl64 (s.height : ℚ)) ≤ s.y then
      { s with
        y := fl64 (fl64 (2 * fl64 ((windowHeight : ℚ) - fl64 (s.height : ℚ))) - s.y)
        vy := -s.vy }
    else s
  let s := { s with angle := fl64 (s.angle + 1) }
  if s.angle = (maxAngle : ℚ) then { s with angle := 0 } else s

/-- The asteroid after `n` calls of `Asteroid.Update` in float64 arithmetic. -/
def Asteroid.UpdateN64 (s : Asteroid) : Nat → Asteroid
  | 0 => s
  | n + 1 => (Asteroid.UpdateN64 s n).Update64

/-- The asteroid built by one goroutine of the split-off loop in `Game.Update`,
with the float64 rounding of `rand.Float64()*(500-400)` and of the sum with the
hit position: `newMiniAsteroid` with `fl64` around the product and the sum. The
constant `500-400` and the conversions of the small integers are exact. -/
def newMiniAsteroid64 (x y : ℚ) (d : SpawnDraw) : Asteroid :=
  { width := miniAsteroidWidth
    height := miniAsteroidWidth
    x := fl64 (x + fl64 (d.fx * (500 - 400)))
    y := fl64 (y + fl64 (d.fy * (500 - 400)))
    vx := ((3 * d.sx - 1 : Int) : ℚ)
    vy := ((2 * d.sy - 1 : Int) : ℚ)
    angle := (d.a : ℚ) }

/-! ## Vocabulary of the statements -/

/-- The state `hit` leaves after removing the asteroid in slot `i`. -/
def Game.afterHit (g : Game) (i : Nat) : Game :=
  { g with
    shooting := false
    rocketXPos := g.shipXPos + 23.5
    rocketYPos := g.shipYPos + 40
    asteroids := ⟨g.asteroids.asteroidsList.eraseIdx i⟩
    AsteroidsInGame := g.AsteroidsInGame - 1 }

/-- The rocket box placed at the launch position of the current ship. -/
def Game.atLaunch (g : Game) : Game :=
  { g with rocketXPos := g.shipXPos + 23.5, rocketYPos := g.shipYPos + 40 }

/-- The value of a normal return, if any. -/
def Outcome.toOption {α : Type} : Outcome α → Option α
  | .ok a => some a
  | .exit => none
  | .panic => none

/-- Number of the first `n` slots of `l` that hold an asteroid satisfying `p`. -/
def overlapCount (p : Asteroid → Prop) [DecidablePred p] (l : List (Option Asteroid))
    (n : Nat) : Nat :=
  (l.take n).countP fun o =>
    match o with
    | some a => decide (p a)
    | none => false

/-- The fields no statement of `case ModePlay` before `g.hit()` writes. -/
def Game.sameField (g g' : Game) : Prop :=
  g'.playerHealth = g.playerHealth ∧ g'.asteroids = g.asteroids ∧
  g'.miniAsteroids = g.miniAsteroids ∧ g'.AsteroidsInGame = g.AsteroidsInGame ∧
  g'.miniAsteroidsInGame = g.miniAsteroidsInGame ∧ g'.inited = g.inited ∧
  g'.MinDifficulty = g.MinDifficulty

/-- The asteroid after `n` calls of `Asteroid.Update`. -/
def Asteroid.UpdateN (s : Asteroid) : Nat → Asteroid
  | 0 => s
  | n + 1 => (Asteroid.UpdateN s n).Update

/-- The edges the specification lists: Start to LevelSelect, LevelSelect to
Playing, Playing to Paused, Paused to Playing, Playing to Over, Playing to Won,
Over to Start or LevelSelect, Won to Start or LevelSelect. -/
def listedEdge (m m' : Mode) : Prop :=
  (m = ModeStart ∧ m' = ModeLevels) ∨ (m = ModeLevels ∧ m' = ModePlay) ∨
  (m = ModePlay ∧ m' = ModePause) ∨ (m = ModePause ∧ m' = ModePlay) ∨
  (m = ModePlay ∧ m' = ModeOver) ∨ (m = ModePlay ∧ m' = ModeWon) ∨
  (m = ModeOver ∧ (m' = ModeStart ∨ m' = ModeLevels)) ∨
  (m = ModeWon ∧ (m' = ModeStart ∨ m' = ModeLevels))

instance (m m' : Mode) : Decidable (listedEdge m m') := by
  unfold listedEdge; infer_instance

/-- The states of the running program: the state `main` starts from, and every
state a returning `Game.Update` leads to, whatever the inputs. -/
inductive Reachable : Game → Prop where
  | start : Reachable Game.initial
  | step (g g' : Game) (e : Env) : Reachable g → g.Update e = .ok g' → Reachable g'

/-- In the update with inputs `e` the rocket overlaps no large asteroid when
`g.hit()` is called. -/
def Game.rocketFree (g : Game) (e : Env) : Prop :=
  ∀ (i : Nat) (a : Asteroid), (g.playMove e.keys).asteroids.asteroidsList[i]? = some (some a) →
    ¬ (g.playMove e.keys).rocketHits a

/-- The states reached from `g0` by playing updates in which the rocket
overlaps no asteroid. -/
inductive QuietReach (g0 : Game) : Game → Prop where
  | start : QuietReach g0 g0
  | step (g g' : Game) (e : Env) : QuietReach g0 g → g.mode = ModePlay → g.rocketFree e →
      g.Update e = .ok g' → QuietReach g0 g'

/-- The large list is fully populated and there is no small asteroid. -/
def Game.fullOf (g : Game) (d : Int) : Prop :=
  g.AsteroidsInGame = d ∧ (g.asteroids.asteroidsList.length : Int) = d ∧
  (∀ i : Nat, (i : Int) < d → ∃ a, g.asteroids.asteroidsList[i]? = some (some a)) ∧
  g.miniAsteroidsInGame = 0

/-- Reference pass for `hit`, following the specification's words: the
asteroids that are in the list at the start of the pass (`todo` of them are
still to be visited) are overlap-tested exactly once each, in index order,
against the current rocket position; each one that overlaps is removed and the
rocket is reset on each removal. `k` is the slot in which the next asteroid to
visit now sits: it advances after a miss and stays after a removal, because the
removal moves the next asteroid into slot `k`. -/
def Game.hitRefLoop : Nat → Nat → Game → ℚ → ℚ → Outcome (Game × ℚ × ℚ)
  | 0, _, g, x, y => .ok (g, x, y)
  | todo + 1, k, g, x, y =>
    match g.asteroids.asteroidsList[k]? with
    | some (some a) =>
      if g.rocketHits a then
        let g := { g with shooting := false }
        let g := g.resetRocket
        let g := { g with asteroids := ⟨blowUp g.asteroids.asteroidsList k⟩ }
        let g := { g with AsteroidsInGame := g.AsteroidsInGame - 1 }
        Game.hitRefLoop todo k g a.x a.y
      else Game.hitRefLoop todo (k + 1) g x y
    | _ => .panic

/-- Reference for `hit`: one pass over the `AsteroidsInGame` large asteroids. -/
def Game.hitRef (g : Game) : Outcome (Game × ℚ × ℚ) :=
  Game.hitRefLoop g.AsteroidsInGame.toNat 0 g (-1) (-1)

/-- Reference pass for `miniHit`, as `hitRefLoop` for the small asteroids. -/
def Game.miniHitRefLoop : Nat → Nat → Game → Outcome Game
  | 0, _, g => .ok g
  | todo + 1, k, g =>
    match g.miniAsteroids.asteroidsList[k]? with
    | some (some a) =>
      if g.rocketHitsMini a then
        let g := { g with shooting := false }
        let g := g.resetRocket
        let g := { g with miniAsteroids := ⟨blowUp g.miniAsteroids.asteroidsList k⟩ }
        let g := { g with miniAsteroidsInGame := g.miniAsteroidsInGame - 1 }
        Game.miniHitRefLoop todo k g
      else Game.miniHitRefLoop todo (k + 1) g
    | _ => .panic

/-- Reference for `miniHit`: one pass over the `miniAsteroidsInGame` small
asteroids. -/
def Game.miniHitRef (g : Game) : Outcome Game :=
  Game.miniHitRefLoop g.miniAsteroidsInGame.toNat 0 g

/-- Slots `0 .. n-1` of `l` hold an asteroid (exist and are not nil). -/
def slotsFilled (l : List (Option Asteroid)) (n : Int) : Prop :=
  ∀ i : Nat, (i : Int) < n → ∃ a, l[i]? = some (some a)

/-- The large half of the consistency of counters and lists: `AsteroidsInGame`
is the length of the large list and every slot holds an asteroid. -/
def Game.largeConsistent (g : Game) : Prop :=
  g.AsteroidsInGame = (g.asteroids.asteroidsList.length : Int) ∧
  slotsFilled g.asteroids.asteroidsList g.AsteroidsInGame

/-- The small half: `0 <= miniAsteroidsInGame <= ` length of the small list and
every slot below the counter holds an asteroid. -/
def Game.miniConsistent (g : Game) : Prop :=
  0 ≤ g.miniAsteroidsInGame ∧
  g.miniAsteroidsInGame ≤ (g.miniAsteroids.asteroidsList.length : Int) ∧
  slotsFilled g.miniAsteroids.asteroidsList g.miniAsteroidsInGame

/-- Counters consistent with the lists. -/
def Game.consistent (g : Game) : Prop :=
  g.largeConsistent ∧ g.miniConsistent

/-- The small list has two free slots for every large asteroid left. -/
def Game.roomy (g : Game) : Prop :=
  g.miniAsteroidsInGame + 2 * g.AsteroidsInGame ≤ (g.miniAsteroids.asteroidsList.length : Int)

/-- No goroutine of the split-off loop runs before the loop has finished. -/
def Env.deferred (e : Env) : Prop :=
  ∀ k, e.sched k = 0

/-- The states reached from `g0` by playing updates that return, whatever the
inputs. -/
inductive PlayReach (g0 : Game) : Game → Prop where
  | start : PlayReach g0 g0
  | step (g g' : Game) (e : Env) : PlayReach g0 g → g.mode = ModePlay →
      g.Update e = .ok g' → PlayReach g0 g'

/-- The states reached from `g0` by playing updates in which no goroutine of the
split-off loop runs before the loop has finished. -/
inductive PlayReachDeferred (g0 : Game) : Game → Prop where
  | start : PlayReachDeferred g0 g0
  | step (g g' : Game) (e : Env) : PlayReachDeferred g0 g → g.mode = ModePlay →
      e.deferred → g.Update e = .ok g' → PlayReachDeferred g0 g'

/-- Playing updates run one after the other, one `Env` each: the state they lead
to, or `none` when one of them does not start in `ModePlay` or does not
return. -/
def Game.playRun : Game → List Env → Option Game
  | g, [] => some g
  | g, e :: es =>
    if g.mode = ModePlay then
      match g.Update e with
      | .ok g' => Game.playRun g' es
      | .exit => none
      | .panic => none
    else none

/-- A large asteroid inside the play area, moving diagonally by one pixel per
step: width 100, height 80, `0 <= x <= 700`, `0 <= y <= 520`, `vx` and `vy`
each `-1` or `+1`. -/
def Asteroid.insideLarge (s : Asteroid) : Prop :=
  s.width = 100 ∧ s.height = 80 ∧ 0 ≤ s.x ∧ s.x ≤ 700 ∧ 0 ≤ s.y ∧ s.y ≤ 520 ∧
  (s.vx = -1 ∨ s.vx = 1) ∧ (s.vy = -1 ∨ s.vy = 1)

/-! ## Sample states and inputs -/

/-- A large asteroid of the generated size at `(x, y)`. -/
def sampleAsteroid (x y : ℚ) : Asteroid :=
  { width := 100, height := 80, x := x, y := y, vx := 1, vy := 1, angle := 0 }

/-- A playing state: ship at `(375, 440)`, rocket in flight at `(398.5, 300)`,
two large asteroids of which only the second overlaps the rocket. -/
def sampleOneHit : Game :=
  { asteroidXPos := 0, asteroidYPos := 0, shipXPos := 375, shipYPos := 440
    rocketXPos := 398.5, rocketYPos := 300, mode := ModePlay, shooting := true
    playerHealth := 100
    asteroids := ⟨[some (sampleAsteroid 0 0), some (sampleAsteroid 350 250)]⟩
    miniAsteroids := ⟨List.replicate 40 none⟩, inited := true
    AsteroidsInGame := 2, miniAsteroidsInGame := 0, MinDifficulty := 2 }

/-- The asteroid of the worked example: `x = 798`, `width = 100`, `vx = +1`
(and on the other axis `y = 10`, `height = 80`, `vy = -1`). -/
def sampleReflect : Asteroid :=
  { width := 100, height := 80, x := 798, y := 10, vx := 1, vy := -1, angle := 0 }

/-- Inputs with no key pressed in which every goroutine of the split-off loop
has finished before the loop condition is evaluated again. -/
def sampleEager : Env :=
  { keys := []
    gen := fun _ => ⟨0, 0, 0, 0, 0⟩
    split := fun _ => ⟨1 / 2, 1 / 2, 0, 0, 0⟩
    sched := fun k => k }

/-- The same inputs with the goroutines of the split-off loop running only
once the loop has reached `wg.Wait()`. -/
def sampleDeferred : Env :=
  { sampleEager with sched := fun _ => 0 }

/-- The same inputs with exactly one of the first two goroutines of the
split-off loop having finished when the loop condition is evaluated for the
third time. -/
def sampleOneEarly : Env :=
  { sampleEager with sched := fun k => if k = 2 then 1 else 0 }

/-- A playing state whose ship at `(375, 440)` is overlapped by the large
asteroid in slot 1 and by the one live small asteroid. -/
def sampleCollide : Game :=
  { asteroidXPos := 0, asteroidYPos := 0, shipXPos := 375, shipYPos := 440
    rocketXPos := 398.5, rocketYPos := 480, mode := ModePlay, shooting := false
    playerHealth := 100
    asteroids := ⟨[some (sampleAsteroid 0 0), some (sampleAsteroid 350 400)]⟩
    miniAsteroids := ⟨[some ⟨50, 50, 400, 450, -1, 1, 7⟩, none]⟩, inited := true
    AsteroidsInGame := 2, miniAsteroidsInGame := 1, MinDifficulty := 2 }

/-- A large asteroid at `(10, 20)` moving by `(+1, +1)`. -/
def sampleFree : Asteroid :=
  { width := 100, height := 80, x := 10, y := 20, vx := 1, vy := 1, angle := 254 }

/-- The draws of one goroutine of the split-off loop: the first `rand.Float64()`
returns `5764607523034241 / 2^59` (`0x1.47ae147ae1481p-7`, just above 0.01; it
is `float64(n) / 2^63` for the 63-bit `n = 5764607523034241 * 16`), the second
returns 0.5, both `rand.Intn(2)` return 1 and `rand.Intn(maxAngle)` returns 0. -/
def sampleDraw : SpawnDraw :=
  ⟨5764607523034241 / 2 ^ 59, 1 / 2, 1, 1, 0⟩

/-- The small asteroid a goroutine of the split-off loop builds from
`sampleDraw` when the rocket has hit a large asteroid at `(0, 100)`: 50 by 50, at
`(1 + 5 / 2^52, 150)`, with velocity `(+2, +1)`. -/
def sampleSmall : Asteroid :=
  newMiniAsteroid64 0 100 sampleDraw

/-- A paused game. -/
def samplePaused : Game :=
  { sampleCollide with mode := ModePause }

/-- Inputs with the single key M pressed. -/
def sampleKeyM : Env :=
  { sampleEager with keys := [KeyM] }

/-- The level-select screen of a fresh game. -/
def sampleLevels : Game :=
  { Game.initial with mode := ModeLevels }

/-- A small asteroid of the split-off size at `(x, y)`. -/
def sampleMini (x y : ℚ) : Asteroid :=
  { width := 50, height := 50, x := x, y := y, vx := -1, vy := 1, angle := 0 }

/-- A playing state with the ship at `(375, 440)` and the rocket in flight at
`(398.5, 300)`. Large asteroid 0 and small asteroid 0 overlap the rocket; large
asteroid 1 and small asteroid 1, which directly follow them, overlap the launch
position `(398.5, 480)`. -/
def sampleTwoHits : Game :=
  { asteroidXPos := 0, asteroidYPos := 0, shipXPos := 375, shipYPos := 440
    rocketXPos := 398.5, rocketYPos := 300, mode := ModePlay, shooting := true
    playerHealth := 100
    asteroids := ⟨[some (sampleAsteroid 350 250), some (sampleAsteroid 350 420)]⟩
    miniAsteroids := ⟨[some (sampleMini 380 280), some (sampleMini 380 460), none]⟩
    inited := true, AsteroidsInGame := 2, miniAsteroidsInGame := 2, MinDifficulty := 2 }

/-- Inputs of the level-select update: key 1 pressed; every large asteroid is
generated at `(350, 259)` with velocity `(+1, +1)`. The draws of the split-off
goroutines put the small asteroid of slot 0 at offset `(50, 90)` and every other
one at offset `(50, 0)`, all with velocity `(-1, +1)`; the goroutines run after
the loop. -/
def sampleKey1 : Env :=
  { keys := [Key1]
    gen := fun _ => ⟨350, 259, 1, 1, 0⟩
    split := fun i => if i = 0 then ⟨1 / 2, 9 / 10, 0, 1, 0⟩ else ⟨1 / 2, 0, 0, 1, 0⟩
    sched := fun _ => 0 }

/-- The same draws with the fire key pressed. -/
def sampleFire : Env :=
  { sampleKey1 with keys := [KeySpace] }

/-- The fire key pressed, and every goroutine of the split-off loop has
incremented `miniAsteroidsInGame` before the loop condition is evaluated
again. -/
def sampleFireRace : Env :=
  { sampleFire with sched := fun k => k }

/-- The state in which level 1 starts with the draws of `sampleKey1`. -/
def sampleLevel1 : Game :=
  { asteroidXPos := 0, asteroidYPos := 0, shipXPos := 375, shipYPos := 440
    rocketXPos := 398.5, rocketYPos := 480, mode := ModePlay, shooting := false
    playerHealth := 100
    asteroids := ⟨List.replicate 5 (some ⟨100, 80, 350, 259, 1, 1, 0⟩)⟩
    miniAsteroids := ⟨List.replicate 40 none⟩
    inited := true, AsteroidsInGame := 5, miniAsteroidsInGame := 0, MinDifficulty := 5 }

/-- A state in `ModePlay` with no health left and no asteroid of either kind. -/
def sampleNoHealth : Game :=
  { asteroidXPos := 0, asteroidYPos := 0, shipXPos := 375, shipYPos := 440
    rocketXPos := 398.5, rocketYPos := 480, mode := ModePlay, shooting := false
    playerHealth := 0, asteroids := ⟨[]⟩, miniAsteroids := ⟨List.replicate 40 none⟩
    inited := true, AsteroidsInGame := 0, miniAsteroidsInGame := 0, MinDifficulty := 5 }

/-- The draws of `sampleKey1` with the keys Up and W pressed. -/
def sampleUp : Env :=
  { sampleKey1 with keys := [KeyUp, KeyW] }

/-- The draws of `sampleKey1` with no key pressed. -/
def sampleIdle : Env :=
  { sampleKey1 with keys := [] }

/-- A generated asteroid next to the right edge: `x = 699`, `y = 259`, moving
by `(+1, +1)`. -/
def sampleEdge : Asteroid :=
  newAsteroid ⟨699, 259, 1, 1, 17⟩

/-! # Theorems -/

/-! ## Basic facts -/

/-- Sequencing after a normal return. -/
@[simp]
theorem Outcome.bind_ok {α β : Type} (a : α) (f : α → Outcome β) :
    (Outcome.ok a).bind f = f a := rfl

/-- Sequencing after an exit. -/
@[simp]
theorem Outcome.bind_exit {α β : Type} (f : α → Outcome β) :
    (Outcome.exit : Outcome α).bind f = .exit := rfl

/-- Sequencing after a panic. -/
@[simp]
theorem Outcome.bind_panic {α β : Type} (f : α → Outcome β) :
    (Outcome.panic : Outcome α).bind f = .panic := rfl

/-- A sequence that returns normally did so in both of its parts. -/
theorem Outcome.bind_eq_ok {α β : Type} {r : Outcome α} {f : α → Outcome β} {b : β}
    (h : r.bind f = .ok b) : ∃ a, r = .ok a ∧ f a = .ok b := by
  cases r with
  | ok a => exact ⟨a, rfl, h⟩
  | exit => simp at h
  | panic => simp at h

/-- The splice of `blowUp` removes exactly the element at `index` and keeps the
order of the others. -/
theorem blowUp_eq_eraseIdx (l : List (Option Asteroid)) (i : Nat) :
    blowUp l i = l.eraseIdx i := by
  unfold blowUp
  exact (List.eraseIdx_eq_take_drop_succ l i).symm

/-! ## The loop of `hit` -/

/-- A scan that meets no overlapping asteroid from index `i` on returns the
state and the recorded position unchanged. -/
theorem hitLoop_miss (fuel : Nat) : ∀ (i : Nat) (g : Game) (x y : ℚ),
    (∀ j, i ≤ j → (j : Int) < g.AsteroidsInGame →
      ∃ b, g.asteroids.asteroidsList[j]? = some (some b) ∧ ¬ g.rocketHits b) →
    Game.hitLoop fuel i g x y = .ok (g, x, y) := by
  induction fuel with
  | zero => intro i g x y _; rfl
  | succ n ih =>
    intro i g x y h
    unfold Game.hitLoop
    by_cases hi : (i : Int) < g.AsteroidsInGame
    · obtain ⟨b, hb, hnb⟩ := h i (le_refl i) hi
      rw [if_pos hi, hb]
      simp only [if_neg hnb]
      exact ih (i + 1) g x y (fun j hj hjc => h j (by omega) hjc)
    · rw [if_neg hi]

/-- The launch position is `(shipXPos + 23.5, shipYPos + 40)`. -/
theorem resetRocket_eq (g : Game) :
    g.resetRocket = { g with rocketXPos := g.shipXPos + 23.5, rocketYPos := g.shipYPos + 40 } := by
  unfold Game.resetRocket
  have h1 : ((shipWidth / 2 : Int) : ℚ) - 1.5 = 23.5 := by norm_num
  have h2 : ((shipHeight / 2 : Int) : ℚ) = 40 := by norm_num
  rw [add_sub_assoc, h1, h2]

/-- A scan that starts at `j ≤ i`, meets its first overlapping asteroid in slot
`i` and then none that overlaps the launch position, removes exactly slot `i`. -/
theorem hitLoop_single (fuel : Nat) : ∀ (j i : Nat) (g : Game) (a : Asteroid) (x y : ℚ),
    j ≤ i → (i : Int) < g.AsteroidsInGame → (g.AsteroidsInGame - j).toNat ≤ fuel →
    (∀ k, j ≤ k → k < i →
      ∃ b, g.asteroids.asteroidsList[k]? = some (some b) ∧ ¬ g.rocketHits b) →
    g.asteroids.asteroidsList[i]? = some (some a) → g.rocketHits a →
    (∀ k, i < k → (k : Int) < g.AsteroidsInGame →
      ∃ b, g.asteroids.asteroidsList[k]? = some (some b) ∧ ¬ g.atLaunch.rocketHits b) →
    Game.hitLoop fuel j g x y = .ok (g.afterHit i, a.x, a.y) := by
  induction fuel with
  | zero => intro j i g a x y hji hi hf; omega
  | succ n ih =>
    intro j i g a x y hji hi hf hbefore hat hhit hafter
    unfold Game.hitLoop
    have hj : (j : Int) < g.AsteroidsInGame := by omega
    rw [if_pos hj]
    rcases Nat.eq_or_lt_of_le hji with hEq | hLt
    · subst hEq
      rw [hat]
      simp only [if_pos hhit]
      have hg : ({ (Game.resetRocket { g with shooting := false }) with
            asteroids := ⟨blowUp (Game.resetRocket { g with shooting := false }).asteroids.asteroidsList j⟩,
            AsteroidsInGame := g.AsteroidsInGame - 1 } : Game) = g.afterHit j := by
        rw [resetRocket_eq, blowUp_eq_eraseIdx]
        rfl
      have := hitLoop_miss n (j + 1) (g.afterHit j) a.x a.y (by
        intro k hk hkc
        have hkc' : ((k + 1 : Nat) : Int) < g.AsteroidsInGame := by
          have : (g.afterHit j).AsteroidsInGame = g.AsteroidsInGame - 1 := rfl
          push_cast; omega
        obtain ⟨b, hb, hnb⟩ := hafter (k + 1) (by omega) hkc'
        refine ⟨b, ?_, hnb⟩
        show (g.asteroids.asteroidsList.eraseIdx j)[k]? = some (some b)
        rw [List.getElem?_eraseIdx_of_ge _ _ _ (by omega)]
        exact hb)
      rw [← this]
      congr 1
    · obtain ⟨b, hb, hnb⟩ := hbefore j (le_refl j) hLt
      rw [hb]
      simp only [if_neg hnb]
      exact ih (j + 1) i g a x y hLt hi (by omega) (fun k hk hki => hbefore k (by omega) hki)
        hat hhit hafter

/-! ## The iteration bounds are never used up -/

/-- Any two bounds that cover the remaining `AsteroidsInGame - i` iterations
give the same result: the loop of `hit` always ends by its own condition. -/
theorem hitLoop_bound_irrelevant (f1 : Nat) : ∀ (f2 i : Nat) (g : Game) (x y : ℚ),
    (g.AsteroidsInGame - (i : Int)).toNat ≤ f1 → (g.AsteroidsInGame - (i : Int)).toNat ≤ f2 →
    Game.hitLoop f1 i g x y = Game.hitLoop f2 i g x y := by
  induction f1 with
  | zero =>
    intro f2 i g x y h1 _
    cases f2 with
    | zero => rfl
    | succ m =>
      simp only [Game.hitLoop]
      rw [if_neg (by omega)]
  | succ n ih =>
    intro f2 i g x y h1 h2
    cases f2 with
    | zero =>
      simp only [Game.hitLoop]
      rw [if_neg (by omega)]
    | succ m =>
      simp only [Game.hitLoop]
      by_cases hc : (i : Int) < g.AsteroidsInGame
      · rw [if_pos hc, if_pos hc]
        split
        · split_ifs
          · apply ih
            · simp only [Game.resetRocket]; push_cast; omega
            · simp only [Game.resetRocket]; push_cast; omega
          · apply ih
            · push_cast; omega
            · push_cast; omega
        · rfl
      · rw [if_neg hc, if_neg hc]

/-- The same for the loop of `miniHit`. -/
theorem miniHitLoop_bound_irrelevant (f1 : Nat) : ∀ (f2 i : Nat) (g : Game),
    (g.miniAsteroidsInGame - (i : Int)).toNat ≤ f1 →
    (g.miniAsteroidsInGame - (i : Int)).toNat ≤ f2 →
    Game.miniHitLoop f1 i g = Game.miniHitLoop f2 i g := by
  induction f1 with
  | zero =>
    intro f2 i g h1 _
    cases f2 with
    | zero => rfl
    | succ m =>
      simp only [Game.miniHitLoop]
      rw [if_neg (by omega)]
  | succ n ih =>
    intro f2 i g h1 h2
    cases f2 with
    | zero =>
      simp only [Game.miniHitLoop]
      rw [if_neg (by omega)]
    | succ m =>
      simp only [Game.miniHitLoop]
      by_cases hc : (i : Int) < g.miniAsteroidsInGame
      · rw [if_pos hc, if_pos hc]
        split
        · split_ifs
          · apply ih
            · simp only [Game.resetRocket]; push_cast; omega
            · simp only [Game.resetRocket]; push_cast; omega
          · apply ih
            · push_cast; omega
            · push_cast; omega
        · rfl
      · rw [if_neg hc, if_neg hc]

/-- The same for the split-off loop, which stops at `i = maxDifficulty` at the
latest. -/
theorem spawnLoop_bound_irrelevant (e : Env) (x y : ℚ) (m : Int) (f1 : Nat) :
    ∀ (f2 k : Nat) (g : Game),
    (maxDifficulty - m - (k : Int)).toNat ≤ f1 → (maxDifficulty - m - (k : Int)).toNat ≤ f2 →
    Game.spawnLoop e x y m f1 k g = Game.spawnLoop e x y m f2 k g := by
  have hmd : maxDifficulty = 40 := rfl
  induction f1 with
  | zero =>
    intro f2 k g h1 _
    cases f2 with
    | zero => rfl
    | succ j =>
      simp only [Game.spawnLoop]
      rw [if_neg (by rw [hmd] at h1 ⊢; omega)]
  | succ n ih =>
    intro f2 k g h1 h2
    cases f2 with
    | zero =>
      simp only [Game.spawnLoop]
      rw [if_neg (by rw [hmd] at h2 ⊢; omega)]
    | succ j =>
      simp only [Game.spawnLoop]
      split_ifs
      · apply ih
        · rw [hmd] at h1 ⊢; push_cast; omega
        · rw [hmd] at h2 ⊢; push_cast; omega
      · rfl
      · rfl

/-! ## C1: the contract of `hit` -/

/-- C1. Projectile hit contract of `hit`: in a state where `AsteroidsInGame`
equals the length of the large list and every slot holds an asteroid, if the
asteroid in slot `i` is the only one whose box overlaps the 2x10 rocket box and
no asteroid overlaps the rocket box at the launch position, then `hit` returns
that asteroid's `(x, y)`, the list is the old list with element `i` removed
(the others in their old order), `AsteroidsInGame` is one less, the rocket is at
`(shipXPos + 23.5, shipYPos + 40)` and `shooting` is false, nothing else being
changed; and if no asteroid overlaps the rocket, `hit` returns `(-1, -1)` and
the state is unchanged. -/
theorem C1_hit_contract (g : Game)
    (hlen : g.AsteroidsInGame = (g.asteroids.asteroidsList.length : Int))
    (hsome : ∀ j, j < g.asteroids.asteroidsList.length →
      ∃ b, g.asteroids.asteroidsList[j]? = some (some b)) :
    (∀ (i : Nat) (a : Asteroid),
      g.asteroids.asteroidsList[i]? = some (some a) → g.rocketHits a →
      (∀ (j : Nat) b, j ≠ i → g.asteroids.asteroidsList[j]? = some (some b) → ¬ g.rocketHits b) →
      (∀ (j : Nat) b, g.asteroids.asteroidsList[j]? = some (some b) →
        ¬ Game.rocketHits
          { g with rocketXPos := g.shipXPos + 23.5, rocketYPos := g.shipYPos + 40 } b) →
      g.hit = .ok
        ({ g with
            shooting := false
            rocketXPos := g.shipXPos + 23.5
            rocketYPos := g.shipYPos + 40
            asteroids := ⟨g.asteroids.asteroidsList.eraseIdx i⟩
            AsteroidsInGame := g.AsteroidsInGame - 1 }, a.x, a.y)) ∧
    ((∀ (j : Nat) b, g.asteroids.asteroidsList[j]? = some (some b) → ¬ g.rocketHits b) →
      g.hit = .ok (g, -1, -1)) := by
  constructor
  · intro i a hat hhit hothers hlaunch
    have hi : i < g.asteroids.asteroidsList.length := by
      by_contra hcon
      rw [List.getElem?_eq_none (by omega)] at hat
      cases hat
    unfold Game.hit
    refine hitLoop_single _ 0 i g a (-1) (-1) (Nat.zero_le i) (by omega) (by simp) ?_ hat hhit ?_
    · intro k _ hki
      obtain ⟨b, hb⟩ := hsome k (by omega)
      exact ⟨b, hb, hothers k b (by omega) hb⟩
    · intro k _ hkc
      obtain ⟨b, hb⟩ := hsome k (by omega)
      exact ⟨b, hb, hlaunch k b hb⟩
  · intro hnone
    unfold Game.hit
    apply hitLoop_miss
    intro j _ hjc
    obtain ⟨b, hb⟩ := hsome j (by omega)
    exact ⟨b, hb, hnone j b hb⟩

/-- Witness of C1: in `sampleOneHit` the asteroid in slot 1 is the only one hit
and `hit` removes it and reports `(350, 250)`; with the rocket moved to
`y = 500` nothing is hit and `hit` reports `(-1, -1)`. -/
theorem C1_hit_contract_witness :
    sampleOneHit.hit = .ok
      ({ sampleOneHit with
          shooting := false
          rocketXPos := 375 + 23.5
          rocketYPos := 440 + 40
          asteroids := ⟨[some (sampleAsteroid 0 0)]⟩
          AsteroidsInGame := 1 }, 350, 250) ∧
    Game.hit { sampleOneHit with rocketYPos := 500 } =
      .ok ({ sampleOneHit with rocketYPos := 500 }, -1, -1) := by
  constructor
  · have h := (C1_hit_contract sampleOneHit rfl (by
        intro j hj
        match j, hj with
        | 0, _ => exact ⟨_, rfl⟩
        | 1, _ => exact ⟨_, rfl⟩)).1 1 (sampleAsteroid 350 250) rfl (by decide!) (by
        intro j b hj hb
        match j, hj, hb with
        | 0, _, hb =>
          have : b = sampleAsteroid 0 0 := by
            simpa [sampleOneHit] using hb.symm
          subst this; decide!
        | n + 2, _, hb => simp [sampleOneHit] at hb) (by
        intro j b hb
        match j, hb with
        | 0, hb =>
          have : b = sampleAsteroid 0 0 := by
            simpa [sampleOneHit] using hb.symm
          subst this; decide!
        | 1, hb =>
          have : b = sampleAsteroid 350 250 := by
            simpa [sampleOneHit] using hb.symm
          subst this; decide!
        | n + 2, hb => simp [sampleOneHit] at hb)
    exact h
  · exact (C1_hit_contract { sampleOneHit with rocketYPos := 500 } rfl (by
        intro j hj
        match j, hj with
        | 0, _ => exact ⟨_, rfl⟩
        | 1, _ => exact ⟨_, rfl⟩)).2 (by
        intro j b hb
        match j, hb with
        | 0, hb =>
          have : b = sampleAsteroid 0 0 := by
            simpa [sampleOneHit] using hb.symm
          subst this; decide!
        | 1, hb =>
          have : b = sampleAsteroid 350 250 := by
            simpa [sampleOneHit] using hb.symm
          subst this; decide!
        | n + 2, hb => simp [sampleOneHit] at hb)

/-! ## The asteroid step, field by field -/

/-- The new x position. -/
theorem Asteroid.Update_x (s : Asteroid) :
    s.Update.x =
      if s.x + s.vx < 0 then -(s.x + s.vx)
      else if (windowWidth : ℚ) - (s.width : ℚ) ≤ s.x + s.vx then
        2 * ((windowWidth : ℚ) - (s.width : ℚ)) - (s.x + s.vx)
      else s.x + s.vx := by
  simp only [Asteroid.Update]
  split_ifs <;> rfl

/-- The new x velocity. -/
theorem Asteroid.Update_vx (s : Asteroid) :
    s.Update.vx =
      if s.x + s.vx < 0 then -s.vx
      else if (windowWidth : ℚ) - (s.width : ℚ) ≤ s.x + s.vx then -s.vx
      else s.vx := by
  simp only [Asteroid.Update]
  split_ifs <;> rfl

/-- The new y position. -/
theorem Asteroid.Update_y (s : Asteroid) :
    s.Update.y =
      if s.y + s.vy < 0 then -(s.y + s.vy)
      else if (windowHeight : ℚ) - (s.height : ℚ) ≤ s.y + s.vy then
        2 * ((windowHeight : ℚ) - (s.height : ℚ)) - (s.y + s.vy)
      else s.y + s.vy := by
  simp only [Asteroid.Update]
  split_ifs <;> rfl

/-- The new y velocity. -/
theorem Asteroid.Update_vy (s : Asteroid) :
    s.Update.vy =
      if s.y + s.vy < 0 then -s.vy
      else if (windowHeight : ℚ) - (s.height : ℚ) ≤ s.y + s.vy then -s.vy
      else s.vy := by
  simp only [Asteroid.Update]
  split_ifs <;> rfl

/-- The new angle. -/
theorem Asteroid.Update_angle (s : Asteroid) :
    s.Update.angle = if s.angle + 1 = (maxAngle : ℚ) then 0 else s.angle + 1 := by
  simp only [Asteroid.Update]
  split_ifs <;> rfl

/-- The width is not changed. -/
theorem Asteroid.Update_width (s : Asteroid) : s.Update.width = s.width := by
  simp only [Asteroid.Update]
  split_ifs <;> rfl

/-- The height is not changed. -/
theorem Asteroid.Update_height (s : Asteroid) : s.Update.height = s.height := by
  simp only [Asteroid.Update]
  split_ifs <;> rfl

/-! ## C2: reflection -/

/-- C2. Reflection law of `Asteroid.Update`: on each axis, with
`raw = position + velocity` and `bound = window extent - asteroid extent`
(`800 - width` on x, `600 - height` on y), the cases being tried in this order:
if `raw < 0` the new position is `-raw` and the velocity is negated; else if
`raw >= bound` the new position is `2*bound - raw` and the velocity is negated;
otherwise the new position is `raw` and the velocity is unchanged. When the
asteroid is not larger than the window (`bound >= 0`, as for every asteroid
the program creates) the first two cases exclude each other, so the second
holds without regard to the order. -/
theorem C2_reflection_law (s : Asteroid) :
    (s.x + s.vx < 0 → s.Update.x = -(s.x + s.vx) ∧ s.Update.vx = -s.vx) ∧
    (0 ≤ s.x + s.vx → 800 - (s.width : ℚ) ≤ s.x + s.vx →
      s.Update.x = 2 * (800 - (s.width : ℚ)) - (s.x + s.vx) ∧ s.Update.vx = -s.vx) ∧
    (0 ≤ s.x + s.vx → s.x + s.vx < 800 - (s.width : ℚ) →
      s.Update.x = s.x + s.vx ∧ s.Update.vx = s.vx) ∧
    (s.y + s.vy < 0 → s.Update.y = -(s.y + s.vy) ∧ s.Update.vy = -s.vy) ∧
    (0 ≤ s.y + s.vy → 600 - (s.height : ℚ) ≤ s.y + s.vy →
      s.Update.y = 2 * (600 - (s.height : ℚ)) - (s.y + s.vy) ∧ s.Update.vy = -s.vy) ∧
    (0 ≤ s.y + s.vy → s.y + s.vy < 600 - (s.height : ℚ) →
      s.Update.y = s.y + s.vy ∧ s.Update.vy = s.vy) ∧
    (s.width ≤ 800 → 800 - (s.width : ℚ) ≤ s.x + s.vx →
      s.Update.x = 2 * (800 - (s.width : ℚ)) - (s.x + s.vx) ∧ s.Update.vx = -s.vx) ∧
    (s.height ≤ 600 → 600 - (s.height : ℚ) ≤ s.y + s.vy →
      s.Update.y = 2 * (600 - (s.height : ℚ)) - (s.y + s.vy) ∧ s.Update.vy = -s.vy) := by
  have hw : (windowWidth : ℚ) = 800 := by norm_num
  have hh : (windowHeight : ℚ) = 600 := by norm_num
  rw [Asteroid.Update_x, Asteroid.Update_vx, Asteroid.Update_y, Asteroid.Update_vy, hw, hh]
  refine ⟨?_, ?_, ?_, ?_, ?_, ?_, ?_, ?_⟩
  · intro h; simp [h]
  · intro h0 h; simp [not_lt.mpr h0, h]
  · intro h0 h; simp [not_lt.mpr h0, not_le.mpr h]
  · intro h; simp [h]
  · intro h0 h; simp [not_lt.mpr h0, h]
  · intro h0 h; simp [not_lt.mpr h0, not_le.mpr h]
  · intro hw h
    have h800 : (s.width : ℚ) ≤ 800 := by exact_mod_cast hw
    have h0 : 0 ≤ s.x + s.vx := by linarith
    simp [not_lt.mpr h0, h]
  · intro hw h
    have h600 : (s.height : ℚ) ≤ 600 := by exact_mod_cast hw
    have h0 : 0 ≤ s.y + s.vy := by linarith
    simp [not_lt.mpr h0, h]

/-- Witness of C2, the worked example of the claim: `x = 798`, `width = 100`,
`vx = +1` gives `x = 601` and `vx = -1`. -/
theorem C2_reflection_law_witness :
    sampleReflect.Update.x = 601 ∧ sampleReflect.Update.vx = -1 := by
  have h := (C2_reflection_law sampleReflect).2.1 (by decide!) (by decide!)
  refine ⟨h.1.trans (by decide!), h.2.trans (by decide!)⟩

/-! ## C3: the split-off loop -/

/-- The jitter of a split-off asteroid: it is placed at `(x + dx, y + dy)` with
`0 <= dx < 100` and `0 <= dy < 100`, whatever `math/rand` returns. -/
theorem newMiniAsteroid_jitter (x y : ℚ) (d : SpawnDraw) (hd : d.valid) :
    ∃ dx dy : ℚ, 0 ≤ dx ∧ dx < 100 ∧ 0 ≤ dy ∧ dy < 100 ∧
      (newMiniAsteroid x y d).x = x + dx ∧ (newMiniAsteroid x y d).y = y + dy := by
  obtain ⟨h1, h2, h3, h4, _⟩ := hd
  refine ⟨d.fx * (500 - 400), d.fy * (500 - 400), ?_, ?_, ?_, ?_, rfl, rfl⟩ <;> nlinarith

/-- The split-off loop when no launched goroutine runs before the loop has
finished: starting from `m = miniAsteroidsInGame` with `0 <= m` and the slots
it writes in range, it fills exactly the slots `m .. m + min(2, 40 - m) - 1`
and leaves `miniAsteroidsInGame = m + min(2, 40 - m)`. -/
theorem splitOff_deferred (g : Game) (e : Env) (x y : ℚ)
    (hxy : x ≠ -1 ∨ y ≠ -1) (hs : ∀ k, e.sched k = 0)
    (hm : 0 ≤ g.miniAsteroidsInGame)
    (hroom : g.miniAsteroidsInGame + min 2 (40 - g.miniAsteroidsInGame) ≤
      (g.miniAsteroids.asteroidsList.length : Int)) :
    ∃ g', g.splitOff e x y = .ok g' ∧
      g'.miniAsteroidsInGame =
        g.miniAsteroidsInGame + max 0 (min 2 (40 - g.miniAsteroidsInGame)) ∧
      g'.miniAsteroids.asteroidsList.length = g.miniAsteroids.asteroidsList.length ∧
      (∀ i : Nat, (i : Int) < g.miniAsteroidsInGame ∨ g'.miniAsteroidsInGame ≤ (i : Int) →
        g'.miniAsteroids.asteroidsList[i]? = g.miniAsteroids.asteroidsList[i]?) ∧
      (∀ i : Nat, g.miniAsteroidsInGame ≤ (i : Int) → (i : Int) < g'.miniAsteroidsInGame →
        g'.miniAsteroids.asteroidsList[i]? = some (some (newMiniAsteroid x y (e.split i)))) := by
  obtain ⟨m, hmm⟩ : ∃ m : Nat, g.miniAsteroidsInGame = (m : Int) :=
    ⟨_, (Int.toNat_of_nonneg hm).symm⟩
  have hmd : maxDifficulty = 40 := rfl
  unfold Game.splitOff
  rw [if_pos hxy, hmd]
  rw [hmm] at hroom ⊢
  by_cases h40 : 40 ≤ m
  · have hf : ((40 : Int) - (m : Int)).toNat = 0 := by omega
    rw [hf]
    refine ⟨g, rfl, by omega, rfl, fun _ _ => rfl, fun i h1 h2 => ?_⟩
    have : g.miniAsteroidsInGame = (m : Int) := hmm
    omega
  · by_cases h39 : m = 39
    · subst h39
      have hlen : 39 < g.miniAsteroids.asteroidsList.length := by omega
      have hf : ((40 : Int) - ((39 : Nat) : Int)).toNat = 1 := by omega
      rw [hf]
      have hres : Game.spawnLoop e x y ((39 : Nat) : Int) 1 0 g = .ok
          { g with
            miniAsteroids :=
              ⟨g.miniAsteroids.asteroidsList.set 39 (some (newMiniAsteroid x y (e.split 39)))⟩
            miniAsteroidsInGame := g.miniAsteroidsInGame + 1 } := by
        simp [Game.spawnLoop, hs, hlen, hmd]
      refine ⟨_, hres, ?_, ?_, ?_, ?_⟩
      · simp [hmm]
      · simp
      · intro i hi
        have : (39 : Nat) ≠ i := by
          rcases hi with hi | hi
          · omega
          · simp [hmm] at hi; omega
        simp [List.getElem?_set_ne this]
      · intro i h1 h2
        have : i = 39 := by simp [hmm] at h2; omega
        subst this
        simp [hlen]
    · obtain ⟨f, hf⟩ : ∃ f, ((40 : Int) - (m : Int)).toNat = f + 2 :=
        ⟨((40 : Int) - (m : Int)).toNat - 2, by omega⟩
      have hlen : m + 1 < g.miniAsteroids.asteroidsList.length := by omega
      rw [hf]
      have hend : ∀ g2 : Game, Game.spawnLoop e x y (m : Int) f 2 g2 = .ok g2 := by
        intro g2
        cases f with
        | zero => rfl
        | succ f => simp [Game.spawnLoop, hs, hmd]
      have e0 : ((m : Int) + ((0 : Nat) : Int)).toNat = m := by simp
      have e1 : ((m : Int) + ((0 + 1 : Nat) : Int)).toNat = m + 1 := by
        have : (m : Int) + ((0 + 1 : Nat) : Int) = ((m + 1 : Nat) : Int) := by push_cast; ring
        rw [this]; simp
      have hc0 : ((m : Int) + ((0 : Nat) : Int) < (m : Int) + ((min 0 0 : Nat) : Int) + 2 ∧
          (m : Int) + ((0 : Nat) : Int) < 40) := by
        constructor <;> simp
        omega
      have hc1 : ((m : Int) + ((0 + 1 : Nat) : Int) <
            (m : Int) + ((min 0 (0 + 1) : Nat) : Int) + 2 ∧
          (m : Int) + ((0 + 1 : Nat) : Int) < 40) := by
        constructor <;> simp
        omega
      have hb0 : (0 : Int) ≤ (m : Int) + ((0 : Nat) : Int) ∧
          m < g.miniAsteroids.asteroidsList.length := by
        constructor
        · simp
        · omega
      have hb1 : (0 : Int) ≤ (m : Int) + ((0 + 1 : Nat) : Int) ∧
          m + 1 < (g.miniAsteroids.asteroidsList.set m
              (some (newMiniAsteroid x y (e.split m)))).length := by
        constructor
        · omega
        · simp; omega
      simp only [Game.spawnLoop, hs, hmd]
      rw [e0, e1, if_pos hc0, if_pos hb0, if_pos hc1, if_pos hb1, hend]
      refine ⟨_, rfl, ?_, ?_, ?_, ?_⟩
      · simp only []
        have : min (2 : Int) (40 - (m : Int)) = 2 := by omega
        rw [this, hmm]; simp; ring
      · simp
      · intro i hi
        simp only [hmm] at hi ⊢
        have h1 : m ≠ i := by omega
        have h2 : m + 1 ≠ i := by omega
        rw [List.getElem?_set_ne h2, List.getElem?_set_ne h1]
      · intro i hi1 hi2
        simp only [hmm] at hi2 ⊢
        have : i = m ∨ i = m + 1 := by omega
        rcases this with rfl | rfl
        · rw [List.getElem?_set_ne (by omega), List.getElem?_set, if_pos rfl, if_pos hb0.2]
        · rw [List.getElem?_set, if_pos rfl, if_pos hb1.2]

/-- C3 (evaluation at the failing input). In the playing state `sampleOneHit`
(`miniAsteroidsInGame = 0`) the rocket destroys the large asteroid at
`(350, 250)`. When one of the two goroutines launched by the split-off loop has
incremented `miniAsteroidsInGame` before the loop condition
`i < miniAsteroidsInGame+2` is evaluated for the third time, the update ends
with `miniAsteroidsInGame = 3`, not `0 + min(2, 40 - 0) = 2`; when every
goroutine has done so before the next evaluation, it ends with 40; when the
goroutines run only after the loop, it ends with 2. -/
theorem C3_spawn_count_depends_on_interleaving :
    Option.map Prod.snd (Game.hit (sampleOneHit.playMove sampleEager.keys)).toOption
      = some (350, 250) ∧
    Option.map Game.miniAsteroidsInGame (sampleOneHit.Update sampleOneEarly).toOption = some 3 ∧
    Option.map Game.miniAsteroidsInGame (sampleOneHit.Update sampleEager).toOption = some 40 ∧
    Option.map Game.miniAsteroidsInGame (sampleOneHit.Update sampleDeferred).toOption = some 2 := by
  refine ⟨?_, ?_, ?_, ?_⟩ <;> decide!

/-! ## C4: ship collisions -/

/-- Visiting one more valid slot adds one to the count exactly when its
asteroid overlaps. -/
theorem overlapCount_succ (p : Asteroid → Prop) [DecidablePred p]
    (l : List (Option Asteroid)) (n : Nat) (a : Asteroid) (h : l[n]? = some (some a)) :
    overlapCount p l (n + 1) = overlapCount p l n + if p a then 1 else 0 := by
  unfold overlapCount
  rw [List.take_succ, List.countP_append, h]
  by_cases hp : p a <;> simp [hp, List.countP_cons]

/-- The loop of `ship_hit_asteroid` only ever changes `playerHealth`, by the
number of overlapping asteroids among the slots it has visited. -/
theorem shipHitUpTo_ok (g : Game) : ∀ (n : Nat) (g' : Game),
    g.shipHitUpTo n = .ok g' →
    g' = { g with
      playerHealth := g.playerHealth - (overlapCount g.shipHits g.asteroids.asteroidsList n : Int) } := by
  intro n
  induction n with
  | zero =>
    intro g' h
    simp only [Game.shipHitUpTo] at h
    cases h
    simp [overlapCount]
  | succ n ih =>
    intro g' h
    simp only [Game.shipHitUpTo] at h
    obtain ⟨g1, h1, h2⟩ := Outcome.bind_eq_ok h
    have e1 := ih g1 h1
    have hl : g1.asteroids.asteroidsList = g.asteroids.asteroidsList := by rw [e1]
    rw [hl] at h2
    cases hn : g.asteroids.asteroidsList[n]? with
    | none => rw [hn] at h2; cases h2
    | some o =>
      cases o with
      | none => rw [hn] at h2; cases h2
      | some a =>
        rw [hn] at h2
        have hs : g1.shipHits a ↔ g.shipHits a := by rw [e1]; exact Iff.rfl
        rw [overlapCount_succ _ _ _ a hn]
        by_cases hp : g.shipHits a
        · simp only [if_pos (hs.mpr hp)] at h2
          rw [if_pos hp]
          cases h2
          rw [e1]
          simp only [reduce_health]
          congr 1
          push_cast
          ring
        · simp only [if_neg (fun hc => hp (hs.mp hc))] at h2
          rw [if_neg hp]
          cases h2
          rw [e1]
          simp

/-- With valid slots below `n` the loop of `ship_hit_asteroid` returns. -/
theorem shipHitUpTo_total (g : Game) : ∀ (n : Nat),
    (∀ i, i < n → ∃ a, g.asteroids.asteroidsList[i]? = some (some a)) →
    ∃ g', g.shipHitUpTo n = .ok g' := by
  intro n
  induction n with
  | zero => intro _; exact ⟨g, rfl⟩
  | succ n ih =>
    intro h
    obtain ⟨g1, h1⟩ := ih (fun i hi => h i (by omega))
    obtain ⟨a, ha⟩ := h n (by omega)
    have hl : g1.asteroids.asteroidsList = g.asteroids.asteroidsList := by
      rw [shipHitUpTo_ok g n g1 h1]
    simp only [Game.shipHitUpTo, h1, Outcome.bind_ok, hl, ha]
    split_ifs
    · exact ⟨_, rfl⟩
    · exact ⟨_, rfl⟩

/-- The loop of `ship_hit_mini_asteroid` only ever changes `playerHealth`, by
the number of overlapping small asteroids among the slots it has visited. -/
theorem shipHitMiniUpTo_ok (g : Game) : ∀ (n : Nat) (g' : Game),
    g.shipHitMiniUpTo n = .ok g' →
    g' = { g with
      playerHealth :=
        g.playerHealth - (overlapCount g.shipHitsMini g.miniAsteroids.asteroidsList n : Int) } := by
  intro n
  induction n with
  | zero =>
    intro g' h
    simp only [Game.shipHitMiniUpTo] at h
    cases h
    simp [overlapCount]
  | succ n ih =>
    intro g' h
    simp only [Game.shipHitMiniUpTo] at h
    obtain ⟨g1, h1, h2⟩ := Outcome.bind_eq_ok h
    have e1 := ih g1 h1
    have hl : g1.miniAsteroids.asteroidsList = g.miniAsteroids.asteroidsList := by rw [e1]
    rw [hl] at h2
    cases hn : g.miniAsteroids.asteroidsList[n]? with
    | none => rw [hn] at h2; cases h2
    | some o =>
      cases o with
      | none => rw [hn] at h2; cases h2
      | some a =>
        rw [hn] at h2
        have hs : g1.shipHitsMini a ↔ g.shipHitsMini a := by rw [e1]; exact Iff.rfl
        rw [overlapCount_succ _ _ _ a hn]
        by_cases hp : g.shipHitsMini a
        · simp only [if_pos (hs.mpr hp)] at h2
          rw [if_pos hp]
          cases h2
          rw [e1]
          simp only [reduce_health]
          congr 1
          push_cast
          ring
        · simp only [if_neg (fun hc => hp (hs.mp hc))] at h2
          rw [if_neg hp]
          cases h2
          rw [e1]
          simp

/-- With valid slots below `n` the loop of `ship_hit_mini_asteroid` returns. -/
theorem shipHitMiniUpTo_total (g : Game) : ∀ (n : Nat),
    (∀ i, i < n → ∃ a, g.miniAsteroids.asteroidsList[i]? = some (some a)) →
    ∃ g', g.shipHitMiniUpTo n = .ok g' := by
  intro n
  induction n with
  | zero => intro _; exact ⟨g, rfl⟩
  | succ n ih =>
    intro h
    obtain ⟨g1, h1⟩ := ih (fun i hi => h i (by omega))
    obtain ⟨a, ha⟩ := h n (by omega)
    have hl : g1.miniAsteroids.asteroidsList = g.miniAsteroids.asteroidsList := by
      rw [shipHitMiniUpTo_ok g n g1 h1]
    simp only [Game.shipHitMiniUpTo, h1, Outcome.bind_ok, hl, ha]
    split_ifs
    · exact ⟨_, rfl⟩
    · exact ⟨_, rfl⟩

/-- What `collissonCheck` returns, when it returns: the same state with
`playerHealth` lowered by one per overlapping live asteroid of either list. -/
theorem collissonCheck_ok (g g' : Game) (h : g.collissonCheck = .ok g') :
    g' = { g with
      playerHealth := g.playerHealth
        - (overlapCount g.shipHits g.asteroids.asteroidsList g.AsteroidsInGame.toNat : Int)
        - (overlapCount g.shipHitsMini g.miniAsteroids.asteroidsList
            g.miniAsteroidsInGame.toNat : Int) } := by
  unfold Game.collissonCheck at h
  obtain ⟨g1, h1, h2⟩ := Outcome.bind_eq_ok h
  have e1 := shipHitUpTo_ok g _ g1 h1
  have e2 := shipHitMiniUpTo_ok g1 _ g' h2
  rw [e2, e1]
  rfl

/-! ## What each part of the playing update leaves alone -/

/-- Every state has the fields of itself. -/
theorem Game.sameField.refl (g : Game) : g.sameField g :=
  ⟨rfl, rfl, rfl, rfl, rfl, rfl, rfl⟩

/-- Keeping the fields composes. -/
theorem Game.sameField.trans {g1 g2 g3 : Game} (h1 : g1.sameField g2) (h2 : g2.sameField g3) :
    g1.sameField g3 := by
  obtain ⟨a1, a2, a3, a4, a5, a6, a7⟩ := h1
  obtain ⟨b1, b2, b3, b4, b5, b6, b7⟩ := h2
  exact ⟨b1.trans a1, b2.trans a2, b3.trans a3, b4.trans a4, b5.trans a5, b6.trans a6,
    b7.trans a7⟩

/-- One key moves the ship and the rocket, starts shooting or pauses. -/
theorem playKey_frame (g : Game) (x : Key) :
    g.sameField (g.playKey x) ∧ ((g.playKey x).mode = g.mode ∨ (g.playKey x).mode = ModePause) := by
  cases x <;> exact ⟨Game.sameField.refl _, by simp [Game.playKey]⟩

/-- The key loop of the playing update, as `playKey_frame`. -/
theorem playKeys_frame (keys : List Key) : ∀ g : Game,
    g.sameField (keys.foldl Game.playKey g) ∧
      ((keys.foldl Game.playKey g).mode = g.mode ∨
        (keys.foldl Game.playKey g).mode = ModePause) := by
  induction keys with
  | nil => intro g; exact ⟨Game.sameField.refl g, Or.inl rfl⟩
  | cons x xs ih =>
    intro g
    obtain ⟨h1, h2⟩ := playKey_frame g x
    obtain ⟨h3, h4⟩ := ih (g.playKey x)
    refine ⟨h1.trans h3, ?_⟩
    simp only [List.foldl_cons]
    rcases h4 with h4 | h4
    · rcases h2 with h2 | h2
      · exact Or.inl (h4.trans h2)
      · exact Or.inr (h4.trans h2)
    · exact Or.inr h4

/-- Resetting the rocket moves only the rocket. -/
theorem resetRocket_frame (g : Game) :
    g.sameField g.resetRocket ∧ g.resetRocket.mode = g.mode :=
  ⟨Game.sameField.refl _, rfl⟩

/-- The clamps move only the ship and the rocket. -/
theorem clampShip_frame (g : Game) :
    g.sameField g.clampShip ∧ g.clampShip.mode = g.mode := by
  unfold Game.clampShip
  simp only []
  split_ifs <;> exact ⟨Game.sameField.refl _, rfl⟩

/-- The rocket statements move only the rocket and clear `shooting`. -/
theorem rocketStep_frame (g : Game) :
    g.sameField g.rocketStep ∧ g.rocketStep.mode = g.mode := by
  unfold Game.rocketStep
  simp only []
  split_ifs <;> exact ⟨Game.sameField.refl _, rfl⟩

/-- The part of the playing update before `g.hit()` moves only the ship and the
rocket; the mode stays or becomes `ModePause`. -/
theorem playMove_frame (g : Game) (keys : List Key) :
    g.sameField (g.playMove keys) ∧
      ((g.playMove keys).mode = g.mode ∨ (g.playMove keys).mode = ModePause) := by
  unfold Game.playMove
  obtain ⟨h1, h2⟩ := playKeys_frame keys g
  obtain ⟨h3, h4⟩ := clampShip_frame (keys.foldl Game.playKey g)
  obtain ⟨h5, h6⟩ := rocketStep_frame (Game.clampShip (keys.foldl Game.playKey g))
  refine ⟨(h1.trans h3).trans h5, ?_⟩
  rw [h6, h4]
  exact h2

/-- The loop of `hit` leaves the mode, the health, the ship and the small
asteroids alone. -/
theorem hitLoop_frame (fuel : Nat) : ∀ (i : Nat) (g : Game) (x y : ℚ) (r : Game × ℚ × ℚ),
    Game.hitLoop fuel i g x y = .ok r →
    r.1.mode = g.mode ∧ r.1.playerHealth = g.playerHealth ∧
    r.1.miniAsteroids = g.miniAsteroids ∧ r.1.miniAsteroidsInGame = g.miniAsteroidsInGame ∧
    r.1.shipXPos = g.shipXPos ∧ r.1.shipYPos = g.shipYPos := by
  induction fuel with
  | zero =>
    intro i g x y r h
    simp only [Game.hitLoop] at h
    cases h
    exact ⟨rfl, rfl, rfl, rfl, rfl, rfl⟩
  | succ n ih =>
    intro i g x y r h
    unfold Game.hitLoop at h
    split_ifs at h with hc
    · split at h
      · split_ifs at h
        · have hr := ih _ _ _ _ r h
          exact hr
        · exact ih _ _ _ _ r h
      · cases h
    · cases h
      exact ⟨rfl, rfl, rfl, rfl, rfl, rfl⟩

/-- The loop of `miniHit` leaves the mode, the health, the ship and the large
asteroids alone. -/
theorem miniHitLoop_frame (fuel : Nat) : ∀ (i : Nat) (g g' : Game),
    Game.miniHitLoop fuel i g = .ok g' →
    g'.mode = g.mode ∧ g'.playerHealth = g.playerHealth ∧
    g'.asteroids = g.asteroids ∧ g'.AsteroidsInGame = g.AsteroidsInGame ∧
    g'.shipXPos = g.shipXPos ∧ g'.shipYPos = g.shipYPos := by
  induction fuel with
  | zero =>
    intro i g g' h
    simp only [Game.miniHitLoop] at h
    cases h
    exact ⟨rfl, rfl, rfl, rfl, rfl, rfl⟩
  | succ n ih =>
    intro i g g' h
    unfold Game.miniHitLoop at h
    split_ifs at h with hc
    · split at h
      · split_ifs at h
        · have hr := ih _ _ g' h
          exact hr
        · exact ih _ _ g' h
      · cases h
    · cases h
      exact ⟨rfl, rfl, rfl, rfl, rfl, rfl⟩

/-- The split-off loop leaves everything but the small asteroids and their
counter alone. -/
theorem spawnLoop_frame (e : Env) (x y : ℚ) (m : Int) (fuel : Nat) : ∀ (k : Nat) (g g' : Game),
    Game.spawnLoop e x y m fuel k g = .ok g' →
    g'.mode = g.mode ∧ g'.playerHealth = g.playerHealth ∧
    g'.asteroids = g.asteroids ∧ g'.AsteroidsInGame = g.AsteroidsInGame ∧
    g'.shipXPos = g.shipXPos ∧ g'.shipYPos = g.shipYPos ∧
    g'.rocketXPos = g.rocketXPos ∧ g'.rocketYPos = g.rocketYPos := by
  induction fuel with
  | zero =>
    intro k g g' h
    simp only [Game.spawnLoop] at h
    cases h
    exact ⟨rfl, rfl, rfl, rfl, rfl, rfl, rfl, rfl⟩
  | succ n ih =>
    intro k g g' h
    simp only [Game.spawnLoop] at h
    split_ifs at h with hc hb
    · have hr := ih _ _ g' h
      exact hr
    · cases h
      exact ⟨rfl, rfl, rfl, rfl, rfl, rfl, rfl, rfl⟩

/-- The frame of the split-off block. -/
theorem splitOff_frame (g g' : Game) (e : Env) (x y : ℚ) (h : g.splitOff e x y = .ok g') :
    g'.mode = g.mode ∧ g'.playerHealth = g.playerHealth ∧
    g'.asteroids = g.asteroids ∧ g'.AsteroidsInGame = g.AsteroidsInGame ∧
    g'.shipXPos = g.shipXPos ∧ g'.shipYPos = g.shipYPos ∧
    g'.rocketXPos = g.rocketXPos ∧ g'.rocketYPos = g.rocketYPos := by
  unfold Game.splitOff at h
  split_ifs at h
  · exact spawnLoop_frame e x y _ _ 0 g g' h
  · cases h
    exact ⟨rfl, rfl, rfl, rfl, rfl, rfl, rfl, rfl⟩

/-- Stepping the first `n` slots keeps the length of the list. -/
theorem updateUpTo_length (s : Asteroids) : ∀ (n : Nat) (s' : Asteroids),
    s.updateUpTo n = .ok s' → s'.asteroidsList.length = s.asteroidsList.length := by
  intro n
  induction n with
  | zero => intro s' h; simp only [Asteroids.updateUpTo] at h; cases h; rfl
  | succ n ih =>
    intro s' h
    simp only [Asteroids.updateUpTo] at h
    obtain ⟨s1, h1, h2⟩ := Outcome.bind_eq_ok h
    split at h2
    · cases h2
      simp [ih s1 h1]
    · cases h2

/-- The end of the playing update changes only the two lists (slot by slot) and
the mode; the mode it leaves is decided by the health and the two counters. -/
theorem playFinish_ok (g g' : Game) (h : g.playFinish = .ok g') :
    g'.playerHealth = g.playerHealth ∧ g'.AsteroidsInGame = g.AsteroidsInGame ∧
    g'.miniAsteroidsInGame = g.miniAsteroidsInGame ∧
    g'.asteroids.asteroidsList.length = g.asteroids.asteroidsList.length ∧
    g'.miniAsteroids.asteroidsList.length = g.miniAsteroids.asteroidsList.length ∧
    g'.mode =
      (if g.AsteroidsInGame = 0 ∧ g.miniAsteroidsInGame = 0 then ModeWon
       else if g.playerHealth ≤ 0 then ModeOver else g.mode) := by
  unfold Game.playFinish at h
  obtain ⟨s, hs, h⟩ := Outcome.bind_eq_ok h
  obtain ⟨s', hs', h⟩ := Outcome.bind_eq_ok h
  have l1 := updateUpTo_length _ _ _ hs
  have l2 := updateUpTo_length _ _ _ hs'
  simp only [] at h l2
  cases h
  refine ⟨?_, ?_, ?_, ?_, ?_, ?_⟩
  · split_ifs <;> rfl
  · split_ifs <;> rfl
  · split_ifs <;> rfl
  · split_ifs <;> exact l1
  · split_ifs <;> exact l2
  · split_ifs <;> rfl

/-- The frame of `hit`. -/
theorem hit_frame (g : Game) (r : Game × ℚ × ℚ) (h : g.hit = .ok r) :
    r.1.mode = g.mode ∧ r.1.playerHealth = g.playerHealth ∧
    r.1.miniAsteroids = g.miniAsteroids ∧ r.1.miniAsteroidsInGame = g.miniAsteroidsInGame ∧
    r.1.shipXPos = g.shipXPos ∧ r.1.shipYPos = g.shipYPos :=
  hitLoop_frame _ 0 g (-1) (-1) r h

/-- The frame of `miniHit`. -/
theorem miniHit_frame (g g' : Game) (h : g.miniHit = .ok g') :
    g'.mode = g.mode ∧ g'.playerHealth = g.playerHealth ∧
    g'.asteroids = g.asteroids ∧ g'.AsteroidsInGame = g.AsteroidsInGame ∧
    g'.shipXPos = g.shipXPos ∧ g'.shipYPos = g.shipYPos :=
  miniHitLoop_frame _ 0 g g' h

/-- The frame of `collissonCheck`: only the health changes, and it never goes up. -/
theorem collissonCheck_frame (g g' : Game) (h : g.collissonCheck = .ok g') :
    g'.mode = g.mode ∧ g'.playerHealth ≤ g.playerHealth ∧
    g'.asteroids = g.asteroids ∧ g'.miniAsteroids = g.miniAsteroids ∧
    g'.AsteroidsInGame = g.AsteroidsInGame ∧ g'.miniAsteroidsInGame = g.miniAsteroidsInGame := by
  rw [collissonCheck_ok g g' h]
  refine ⟨rfl, ?_, rfl, rfl, rfl, rfl⟩
  simp only []
  omega

/-- Up to and including the collision checks a playing update never raises the
health and leaves the mode at its old value or at `ModePause`. -/
theorem playCollide_frame (g g' : Game) (e : Env) (h : g.playCollide e = .ok g') :
    g'.playerHealth ≤ g.playerHealth ∧ (g'.mode = g.mode ∨ g'.mode = ModePause) := by
  unfold Game.playCollide at h
  obtain ⟨r, hr, h⟩ := Outcome.bind_eq_ok h
  obtain ⟨g1, h1, h⟩ := Outcome.bind_eq_ok h
  obtain ⟨g2, h2, h3⟩ := Outcome.bind_eq_ok h
  obtain ⟨hs, hmode⟩ := playMove_frame g e.keys
  obtain ⟨a1, a2, _⟩ := hit_frame _ r hr
  obtain ⟨b1, b2, _⟩ := splitOff_frame _ _ _ _ _ h1
  obtain ⟨c1, c2, _⟩ := miniHit_frame _ _ h2
  obtain ⟨d1, d2, _⟩ := collissonCheck_frame _ _ h3
  constructor
  · rw [c2, b2, a2, hs.1] at d2
    exact d2
  · rw [d1, c1, b1, a1]
    exact hmode

/-- C4. Ship collision damage: in a state whose counters index valid asteroids
(every slot below `AsteroidsInGame` in the large list and below
`miniAsteroidsInGame` in the small list holds an asteroid), `collissonCheck`
returns the same state with `playerHealth` lowered by the number of live large
asteroids whose 100x80 box overlaps the 50x80 ship box and by the number of live
small asteroids whose 50x40 box overlaps it, one per overlap; no asteroid,
counter or position is changed. Hence a playing update never raises the
health. -/
theorem C4_collision_damage (g : Game) (e : Env)
    (hl : ∀ i : Nat, (i : Int) < g.AsteroidsInGame →
      ∃ a, g.asteroids.asteroidsList[i]? = some (some a))
    (hm : ∀ i : Nat, (i : Int) < g.miniAsteroidsInGame →
      ∃ a, g.miniAsteroids.asteroidsList[i]? = some (some a)) :
    g.collissonCheck = .ok
      { g with
        playerHealth := g.playerHealth
          - (overlapCount g.shipHits g.asteroids.asteroidsList g.AsteroidsInGame.toNat : Int)
          - (overlapCount g.shipHitsMini g.miniAsteroids.asteroidsList
              g.miniAsteroidsInGame.toNat : Int) } ∧
    (∀ g', g.mode = ModePlay → g.Update e = .ok g' → g'.playerHealth ≤ g.playerHealth) := by
  constructor
  · obtain ⟨g1, h1⟩ := shipHitUpTo_total g g.AsteroidsInGame.toNat
      (fun i hi => hl i (by omega))
    have e1 := shipHitUpTo_ok g _ g1 h1
    obtain ⟨g2, h2⟩ := shipHitMiniUpTo_total g1 g1.miniAsteroidsInGame.toNat (by
      intro i hi
      rw [e1] at hi ⊢
      exact hm i (by simp only [] at hi; omega))
    have hc : g.collissonCheck = .ok g2 := by
      unfold Game.collissonCheck Game.ship_hit_asteroid
      rw [h1]
      exact h2
    rw [hc, collissonCheck_ok g g2 hc]
  · intro g' hmode h
    unfold Game.Update at h
    rw [if_neg (by rw [hmode]; decide), if_neg (by rw [hmode]; decide), if_pos hmode] at h
    obtain ⟨g1, h1, h2⟩ := Outcome.bind_eq_ok h
    rw [(playFinish_ok g1 g' h2).1]
    exact (playCollide_frame g g1 e h1).1

/-- Witness of C4: one large and one small asteroid overlap the ship of
`sampleCollide`, and the health goes from 100 to 98. -/
theorem C4_collision_damage_witness :
    sampleCollide.collissonCheck = .ok { sampleCollide with playerHealth := 98 } := by
  have h := (C4_collision_damage sampleCollide sampleEager
    (by
      intro i hi
      match i, hi with
      | 0, _ => exact ⟨_, rfl⟩
      | 1, _ => exact ⟨_, rfl⟩
      | n + 2, hi => simp [sampleCollide] at hi; omega)
    (by
      intro i hi
      match i, hi with
      | 0, _ => exact ⟨_, rfl⟩
      | n + 1, hi => simp [sampleCollide] at hi; omega)).1
  rw [h]
  decide!

/-! ## The loss check -/

/-- At most `n` of the first `n` slots overlap. -/
theorem overlapCount_le (p : Asteroid → Prop) [DecidablePred p] (l : List (Option Asteroid))
    (n : Nat) : overlapCount p l n ≤ n := by
  unfold overlapCount
  exact (List.countP_le_length _).trans (List.length_take_le n l)

/-- A collision check that lowers the health has met a live asteroid, so one of
the two counters is positive. -/
theorem collissonCheck_drop (g g' : Game) (h : g.collissonCheck = .ok g')
    (hd : g'.playerHealth < g.playerHealth) :
    0 < g.AsteroidsInGame ∨ 0 < g.miniAsteroidsInGame := by
  rw [collissonCheck_ok g g' h] at hd
  simp only [] at hd
  have h1 := overlapCount_le g.shipHits g.asteroids.asteroidsList g.AsteroidsInGame.toNat
  have h2 := overlapCount_le g.shipHitsMini g.miniAsteroids.asteroidsList
    g.miniAsteroidsInGame.toNat
  omega

/-- A playing update is its first part followed by its last part. -/
theorem Update_play (g : Game) (e : Env) (hmode : g.mode = ModePlay) :
    g.Update e = (g.playCollide e).bind Game.playFinish := by
  unfold Game.Update
  rw [if_neg (by rw [hmode]; decide), if_neg (by rw [hmode]; decide), if_pos hmode]

/-- The loss check and the win check after it: in a playing update that has
`playerHealth <= 0` once the collision checks have run, the loss check sets
`ModeOver` and the win check that follows overwrites it with `ModeWon` when
`AsteroidsInGame` and `miniAsteroidsInGame` are both 0. In an update that starts
with `playerHealth > 0` the two cannot coincide: the health has dropped in the
collision check, so a live asteroid is left, and the mode after the update is
`ModeOver`. -/
theorem loss_check_outcome (g g1 g' : Game) (e : Env) (hmode : g.mode = ModePlay)
    (h1 : g.playCollide e = .ok g1) (hh : g1.playerHealth ≤ 0) (h : g.Update e = .ok g') :
    g'.mode = (if g'.AsteroidsInGame = 0 ∧ g'.miniAsteroidsInGame = 0 then ModeWon
      else ModeOver) ∧
    (0 < g.playerHealth → g'.mode = ModeOver) := by
  rw [Update_play g e hmode, h1] at h
  obtain ⟨f1, f2, f3, _, _, f6⟩ := playFinish_ok g1 g' h
  rw [f2, f3, f6]
  constructor
  · split_ifs <;> rfl
  · intro hpos
    have hne : ¬ (g1.AsteroidsInGame = 0 ∧ g1.miniAsteroidsInGame = 0) := by
      unfold Game.playCollide at h1
      obtain ⟨r, hr, h1⟩ := Outcome.bind_eq_ok h1
      obtain ⟨g2, h2, h1⟩ := Outcome.bind_eq_ok h1
      obtain ⟨g3, h3, h4⟩ := Outcome.bind_eq_ok h1
      obtain ⟨hs, _⟩ := playMove_frame g e.keys
      obtain ⟨_, a2, _⟩ := hit_frame _ r hr
      obtain ⟨_, b2, _⟩ := splitOff_frame _ _ _ _ _ h2
      obtain ⟨_, c2, _⟩ := miniHit_frame _ _ h3
      obtain ⟨_, _, _, _, d5, d6⟩ := collissonCheck_frame _ _ h4
      have hg3 : g3.playerHealth = g.playerHealth := by rw [c2, b2, a2, hs.1]
      have := collissonCheck_drop g3 g1 h4 (by omega)
      rw [d5, d6]
      omega
    rw [if_neg hne, if_pos hh]

/-! ## C7: repeated asteroid steps -/

/-- No number of steps changes the width. -/
theorem Asteroid.UpdateN_width (s : Asteroid) (n : Nat) : (s.UpdateN n).width = s.width := by
  induction n with
  | zero => rfl
  | succ n ih => simp only [Asteroid.UpdateN, Asteroid.Update_width, ih]

/-- No number of steps changes the height. -/
theorem Asteroid.UpdateN_height (s : Asteroid) (n : Nat) : (s.UpdateN n).height = s.height := by
  induction n with
  | zero => rfl
  | succ n ih => simp only [Asteroid.UpdateN, Asteroid.Update_height, ih]

/-- C7. Rotation period: for an asteroid whose angle is an integer `a` with
`0 <= a < 256`, the angle after `n` steps of `Asteroid.Update` is
`(a + n) mod 256`; so it stays in `[0, 256)`, the step after 255 gives 0, and
after exactly 256 steps the angle is `a` again. -/
theorem C7_rotation_period (s : Asteroid) (a : Nat) (ha : a < 256) (hs : s.angle = (a : ℚ))
    (n : Nat) :
    (s.UpdateN n).angle = (((a + n) % 256 : Nat) : ℚ) ∧
    (0 ≤ (s.UpdateN n).angle ∧ (s.UpdateN n).angle < 256) ∧
    ((s.UpdateN n).angle = 255 → (s.UpdateN (n + 1)).angle = 0) ∧
    (s.UpdateN 256).angle = s.angle := by
  have key : ∀ m : Nat, (s.UpdateN m).angle = (((a + m) % 256 : Nat) : ℚ) := by
    intro m
    induction m with
    | zero => simp [Asteroid.UpdateN, hs, Nat.mod_eq_of_lt ha]
    | succ m ih =>
      simp only [Asteroid.UpdateN, Asteroid.Update_angle, ih]
      have hm : (maxAngle : ℚ) = ((256 : Nat) : ℚ) := by norm_num
      rw [hm]
      have hc : (((a + m) % 256 : Nat) : ℚ) + 1 = (((a + m) % 256 + 1 : Nat) : ℚ) := by
        push_cast; ring
      rw [hc]
      by_cases hw : (a + m) % 256 + 1 = 256
      · rw [if_pos (by rw [hw])]
        have : (a + (m + 1)) % 256 = 0 := by omega
        rw [this]; simp
      · rw [if_neg (fun hq => hw (Nat.cast_injective hq))]
        have : (a + (m + 1)) % 256 = (a + m) % 256 + 1 := by omega
        rw [this]
  refine ⟨key n, ⟨?_, ?_⟩, ?_, ?_⟩
  · rw [key n]; exact Nat.cast_nonneg _
  · rw [key n]
    have : (a + n) % 256 < 256 := Nat.mod_lt _ (by norm_num)
    exact_mod_cast this
  · intro h255
    rw [key n] at h255
    have h' : (a + n) % 256 = 255 := by exact_mod_cast h255
    rw [key (n + 1)]
    have : (a + (n + 1)) % 256 = 0 := by omega
    rw [this]; simp
  · rw [key 256, hs]
    have : (a + 256) % 256 = a := by omega
    rw [this]

/-- Witness of C7: from angle 254 three steps give 1 and 256 steps give 254. -/
theorem C7_rotation_period_witness :
    (sampleFree.UpdateN 3).angle = 1 ∧ (sampleFree.UpdateN 256).angle = 254 := by
  have h := C7_rotation_period sampleFree 254 (by decide) (by decide!) 3
  exact ⟨h.1.trans (by decide!), h.2.2.2.trans (by decide!)⟩

/-! ## Float64 rounding -/

/-- With enough fuel `log2Loop` finds the leading bit. -/
theorem log2Loop_spec : ∀ (fuel n : Nat), 0 < n → n ≤ fuel →
    2 ^ log2Loop fuel n ≤ n ∧ n < 2 ^ (log2Loop fuel n + 1) := by
  intro fuel
  induction fuel with
  | zero => intro n h0 h; omega
  | succ f ih =>
    intro n h0 h
    unfold log2Loop
    split_ifs with h2
    · obtain ⟨a, b⟩ := ih (n / 2) (by omega) (by omega)
      constructor
      · rw [pow_succ]; omega
      · rw [pow_succ]; omega
    · simp; omega

/-- The leading bit of a positive number. -/
theorem log2Nat_spec (n : Nat) (h : 0 < n) :
    2 ^ log2Nat n ≤ n ∧ n < 2 ^ (log2Nat n + 1) :=
  log2Loop_spec n n h le_rfl

/-- A number below `2^k` has its leading bit below `k`. -/
theorem log2Nat_lt (n k : Nat) (h : 0 < n) (hk : n < 2 ^ k) : log2Nat n < k := by
  have h1 := (log2Nat_spec n h).1
  exact (Nat.pow_lt_pow_iff_right (by norm_num : 1 < 2)).mp (lt_of_le_of_lt h1 hk)

/-- Rounding a whole number. -/
theorem roundHalfEven_one (n : Int) : roundHalfEven n 1 = n := by
  simp [roundHalfEven]

/-- The binade of a whole number is the position of its leading bit. -/
theorem binade_intCast (z : Int) (hz : z ≠ 0) : binade (z : ℚ) = (log2Nat z.natAbs : Int) := by
  have hpos : 0 < z.natAbs := Int.natAbs_pos.mpr hz
  have h1 : log2Nat 1 = 0 := by decide
  simp only [binade, Rat.intCast_num, Rat.intCast_den, h1]
  simp only [Nat.cast_zero, sub_zero, Int.toNat_ofNat, mul_one]
  rw [if_pos (Int.natCast_nonneg _), if_pos (log2Nat_spec _ hpos).1]

/-- A whole number of magnitude below `2^53` is a float64: rounding leaves it as
it is. -/
theorem fl64_intCast (z : Int) (h : z.natAbs < 2 ^ 53) : fl64 (z : ℚ) = (z : ℚ) := by
  unfold fl64
  by_cases hz : z = 0
  · subst hz; simp
  · have hpos : 0 < z.natAbs := Int.natAbs_pos.mpr hz
    have hl : log2Nat z.natAbs < 53 := log2Nat_lt _ _ hpos h
    rw [if_neg (by exact_mod_cast hz), binade_intCast z hz]
    simp only [Rat.intCast_num, Rat.intCast_den]
    have hm : max ((log2Nat z.natAbs : Nat) : Int) (-1022) = (log2Nat z.natAbs : Int) :=
      max_eq_left (by omega)
    rw [hm]
    split_ifs with hp
    · have h52 : ((log2Nat z.natAbs : Nat) : Int) - 52 = 0 := by omega
      rw [h52]
      simp [roundHalfEven_one]
    · rw [roundHalfEven_one]
      push_cast
      field_simp

/-- A natural number below `2^53` is a float64. -/
theorem fl64_natCast (n : Nat) (h : n < 2 ^ 53) : fl64 (n : ℚ) = (n : ℚ) := by
  have := fl64_intCast (n : Int) (by simpa using h)
  simpa using this

/-! ## C6: free motion in float64 arithmetic -/

/-- The float64 step leaves the width alone. -/
theorem Asteroid.Update64_width (s : Asteroid) : s.Update64.width = s.width := by
  simp only [Asteroid.Update64]
  split_ifs <;> rfl

/-- The float64 step leaves the height alone. -/
theorem Asteroid.Update64_height (s : Asteroid) : s.Update64.height = s.height := by
  simp only [Asteroid.Update64]
  split_ifs <;> rfl

/-- No number of float64 steps changes the width. -/
theorem Asteroid.UpdateN64_width (s : Asteroid) (n : Nat) :
    (s.UpdateN64 n).width = s.width := by
  induction n with
  | zero => rfl
  | succ n ih => simp only [Asteroid.UpdateN64, Asteroid.Update64_width, ih]

/-- No number of float64 steps changes the height. -/
theorem Asteroid.UpdateN64_height (s : Asteroid) (n : Nat) :
    (s.UpdateN64 n).height = s.height := by
  induction n with
  | zero => rfl
  | succ n ih => simp only [Asteroid.UpdateN64, Asteroid.Update64_height, ih]

/-- The new x position and velocity of the float64 step. -/
theorem Asteroid.Update64_x (s : Asteroid) :
    (s.Update64.x, s.Update64.vx) =
      if fl64 (s.x + s.vx) < 0 then (-fl64 (s.x + s.vx), -s.vx)
      else if fl64 ((windowWidth : ℚ) - fl64 (s.width : ℚ)) ≤ fl64 (s.x + s.vx) then
        (fl64 (fl64 (2 * fl64 ((windowWidth : ℚ) - fl64 (s.width : ℚ))) - fl64 (s.x + s.vx)),
          -s.vx)
      else (fl64 (s.x + s.vx), s.vx) := by
  simp only [Asteroid.Update64]
  split_ifs <;> rfl

/-- The new y position and velocity of the float64 step. -/
theorem Asteroid.Update64_y (s : Asteroid) :
    (s.Update64.y, s.Update64.vy) =
      if fl64 (s.y + s.vy) < 0 then (-fl64 (s.y + s.vy), -s.vy)
      else if fl64 ((windowHeight : ℚ) - fl64 (s.height : ℚ)) ≤ fl64 (s.y + s.vy) then
        (fl64 (fl64 (2 * fl64 ((windowHeight : ℚ) - fl64 (s.height : ℚ))) - fl64 (s.y + s.vy)),
          -s.vy)
      else (fl64 (s.y + s.vy), s.vy) := by
  simp only [Asteroid.Update64]
  split_ifs <;> rfl

/-- One axis of a free float64 step from whole numbers: when the raw coordinate
`p + v` is a whole number in `[0, W - w)`, with `W < 2^53` the window extent and
`w >= 0` the asteroid extent, no rounding takes place and neither reflection
test fires. -/
theorem free_axis64 (p v : ℚ) (r w : Int) (W : Nat) (hW : W < 2 ^ 53) (hr : p + v = (r : ℚ))
    (hw : 0 ≤ w) (h0 : 0 ≤ p + v) (h1 : p + v < (W : ℚ) - (w : ℚ)) :
    fl64 (p + v) = p + v ∧ ¬ fl64 (p + v) < 0 ∧
      ¬ fl64 ((W : ℚ) - fl64 (w : ℚ)) ≤ fl64 (p + v) := by
  rw [hr] at h0 h1 ⊢
  have h0' : 0 ≤ r := by exact_mod_cast h0
  have h1' : r < (W : Int) - w := by exact_mod_cast h1
  have e1 : fl64 (r : ℚ) = (r : ℚ) := fl64_intCast r (by omega)
  have e2 : fl64 (w : ℚ) = (w : ℚ) := fl64_intCast w (by omega)
  have e3 : fl64 ((W : ℚ) - (w : ℚ)) = (W : ℚ) - (w : ℚ) := by
    have := fl64_intCast ((W : Int) - w) (by omega)
    push_cast at this
    exact this
  rw [e1, e2, e3]
  exact ⟨rfl, not_lt.mpr (by exact_mod_cast h0'), not_le.mpr (by exact_mod_cast h1')⟩

/-- A large asteroid as `generateAsteroids` builds it has whole-number position
and velocity components and positive extents. -/
theorem newAsteroid_whole (d : GenDraw) :
    (newAsteroid d).x = ((d.x : Int) : ℚ) ∧ (newAsteroid d).y = ((d.y : Int) : ℚ) ∧
    (newAsteroid d).vx = ((2 * d.sx - 1 : Int) : ℚ) ∧
    (newAsteroid d).vy = ((2 * d.sy - 1 : Int) : ℚ) ∧
    0 < (newAsteroid d).width ∧ 0 < (newAsteroid d).height :=
  ⟨rfl, rfl, rfl, rfl, (by decide : (0 : Int) < asteroidWidth),
    (by decide : (0 : Int) < asteroidHeight)⟩

/-- C6 (as amended). Free motion in float64 arithmetic: for every asteroid of
non-negative width and height whose position and velocity components are whole
numbers, and every `N >= 0`, if none of the `N` consecutive `Asteroid.Update`
steps crosses a boundary (before each step the raw coordinate
`position + velocity` is `>= 0` and `< window extent - asteroid extent` on both
axes), then after the `N` steps the position is the initial position plus `N`
times the velocity on both axes and the velocity is unchanged. -/
theorem C6_free_motion (s : Asteroid) (N : Nat) (x y vx vy : Int)
    (hx : s.x = (x : ℚ)) (hy : s.y = (y : ℚ)) (hvx : s.vx = (vx : ℚ)) (hvy : s.vy = (vy : ℚ))
    (hw : 0 ≤ s.width) (hh : 0 ≤ s.height)
    (h : ∀ k, k < N →
      0 ≤ (s.UpdateN64 k).x + (s.UpdateN64 k).vx ∧
      (s.UpdateN64 k).x + (s.UpdateN64 k).vx < 800 - ((s.UpdateN64 k).width : ℚ) ∧
      0 ≤ (s.UpdateN64 k).y + (s.UpdateN64 k).vy ∧
      (s.UpdateN64 k).y + (s.UpdateN64 k).vy < 600 - ((s.UpdateN64 k).height : ℚ)) :
    (s.UpdateN64 N).x = s.x + (N : ℚ) * s.vx ∧ (s.UpdateN64 N).y = s.y + (N : ℚ) * s.vy ∧
    (s.UpdateN64 N).vx = s.vx ∧ (s.UpdateN64 N).vy = s.vy := by
  induction N with
  | zero => simp [Asteroid.UpdateN64]
  | succ n ih =>
    obtain ⟨ex, ey, evx, evy⟩ := ih (fun k hk => h k (by omega))
    obtain ⟨a1, a2, a3, a4⟩ := h n (by omega)
    rw [Asteroid.UpdateN64_width] at a2
    rw [Asteroid.UpdateN64_height] at a4
    have rx : (s.UpdateN64 n).x + (s.UpdateN64 n).vx = ((x + (n + 1) * vx : Int) : ℚ) := by
      rw [ex, evx, hx, hvx]; push_cast; ring
    have ry : (s.UpdateN64 n).y + (s.UpdateN64 n).vy = ((y + (n + 1) * vy : Int) : ℚ) := by
      rw [ey, evy, hy, hvy]; push_cast; ring
    obtain ⟨b1, b2, b3⟩ := free_axis64 _ _ _ s.width 800 (by norm_num) rx hw a1
      (by push_cast; exact a2)
    obtain ⟨c1, c2, c3⟩ := free_axis64 _ _ _ s.height 600 (by norm_num) ry hh a3
      (by push_cast; exact a4)
    have hW : (windowWidth : ℚ) = ((800 : Nat) : ℚ) := by norm_num
    have hH : (windowHeight : ℚ) = ((600 : Nat) : ℚ) := by norm_num
    have px := Asteroid.Update64_x (s.UpdateN64 n)
    have py := Asteroid.Update64_y (s.UpdateN64 n)
    rw [Asteroid.UpdateN64_width, hW, if_neg b2, if_neg b3, b1] at px
    rw [Asteroid.UpdateN64_height, hH, if_neg c2, if_neg c3, c1] at py
    simp only [Prod.mk.injEq] at px py
    simp only [Asteroid.UpdateN64]
    rw [px.1, px.2, py.1, py.2, ex, ey, evx, evy]
    push_cast
    refine ⟨by ring, by ring, rfl, rfl⟩

/-- C6 fails as stated, because `Asteroid.Update` adds in float64. The first
draw of `sampleDraw` is a float64 in `[0, 1)`, and the small asteroid
`sampleSmall` spawned from it starts at `x = 1 + 5 / 2^52` with `vx = 2`. None
of its first four steps crosses a boundary, and the velocity is unchanged after
them; but each addition rounds to 53 significant bits, and after the four steps
`x` is exactly 9, not `x + 4 * vx = 9 + 5 / 2^52`. It is not the float64 value
of the formula either, which is `9 + 1 / 2^49`. -/
theorem C6_rounding_drift :
    (fl64 sampleDraw.fx = sampleDraw.fx ∧ 0 ≤ sampleDraw.fx ∧ sampleDraw.fx < 1) ∧
    (sampleSmall.x = 1 + 5 / 2 ^ 52 ∧ sampleSmall.vx = 2) ∧
    (∀ k, k < 4 →
      0 ≤ (sampleSmall.UpdateN64 k).x + (sampleSmall.UpdateN64 k).vx ∧
      (sampleSmall.UpdateN64 k).x + (sampleSmall.UpdateN64 k).vx <
        800 - ((sampleSmall.UpdateN64 k).width : ℚ) ∧
      0 ≤ (sampleSmall.UpdateN64 k).y + (sampleSmall.UpdateN64 k).vy ∧
      (sampleSmall.UpdateN64 k).y + (sampleSmall.UpdateN64 k).vy <
        600 - ((sampleSmall.UpdateN64 k).height : ℚ)) ∧
    (sampleSmall.UpdateN64 4).vx = sampleSmall.vx ∧
    (sampleSmall.UpdateN64 4).x = 9 ∧
    sampleSmall.x + ((4 : Nat) : ℚ) * sampleSmall.vx = 9 + 5 / 2 ^ 52 ∧
    fl64 (sampleSmall.x + fl64 (((4 : Nat) : ℚ) * sampleSmall.vx)) = 9 + 1 / 2 ^ 49 ∧
    (sampleSmall.UpdateN64 4).x ≠ sampleSmall.x + ((4 : Nat) : ℚ) * sampleSmall.vx := by
  refine ⟨by decide!, by decide!, ?_, by decide!, by decide!, by decide!, by decide!,
    by decide!⟩
  intro k hk
  match k, hk with
  | 0, _ => decide!
  | 1, _ => decide!
  | 2, _ => decide!
  | 3, _ => decide!

/-- Witness of C6: three free float64 steps from `(10, 20)` at `(+1, +1)` lead
to `(13, 23)`. -/
theorem C6_free_motion_witness :
    (sampleFree.UpdateN64 3).x = 13 ∧ (sampleFree.UpdateN64 3).y = 23 ∧
    (sampleFree.UpdateN64 3).vx = 1 ∧ (sampleFree.UpdateN64 3).vy = 1 := by
  have h := C6_free_motion sampleFree 3 10 20 1 1 (by decide!) (by decide!) (by decide!)
    (by decide!) (by decide) (by decide) (by
    intro k hk
    match k, hk with
    | 0, _ => decide!
    | 1, _ => decide!
    | 2, _ => decide!)
  refine ⟨h.1.trans (by decide!), h.2.1.trans (by decide!), h.2.2.1.trans (by decide!),
    h.2.2.2.trans (by decide!)⟩

/-! ## C8: mode transitions -/

/-- A property that every key handler call keeps holds after the key loop. -/
theorem forKeys_invariant (f : Game → Key → Outcome Game) (I : Game → Prop)
    (hf : ∀ g x g', I g → f g x = .ok g' → I g') :
    ∀ (keys : List Key) (g g' : Game), I g → forKeys f g keys = .ok g' → I g' := by
  intro keys
  induction keys with
  | nil =>
    intro g g' hI h
    simp only [forKeys] at h
    cases h
    exact hI
  | cons x xs ih =>
    intro g g' hI h
    simp only [forKeys] at h
    obtain ⟨g1, h1, h2⟩ := Outcome.bind_eq_ok h
    exact ih g1 g' (hf g x g1 hI h1) h2

/-- Generation does not touch the mode. -/
theorem generateAsteroids_mode (g : Game) (e : Env) : (generateAsteroids g e).mode = g.mode :=
  rfl

/-- `init` does not touch the mode. -/
theorem init_mode (g g' : Game) (d : Int) (e : Env) (h : g.init d e = .ok g') :
    g'.mode = g.mode := by
  unfold Game.init at h
  simp only [] at h
  split_ifs at h
  cases h
  rfl

/-- C8 (as amended). Mode transitions: one `Game.Update` that returns either
leaves the mode unchanged or changes it along one of the listed edges
(Start to LevelSelect, LevelSelect to Playing, Playing to Paused, Paused to
Playing, Playing to Over, Playing to Won, Over to Start or LevelSelect, Won to
Start or LevelSelect) or along the edge Paused to Start (key M). -/
theorem C8_mode_transitions (g g' : Game) (e : Env) (h : g.Update e = .ok g') :
    g'.mode = g.mode ∨ listedEdge g.mode g'.mode ∨
      (g.mode = ModePause ∧ g'.mode = ModeStart) := by
  unfold Game.Update at h
  split_ifs at h with h0 h1 h3 h4 h5 h6
  · have := forKeys_invariant Game.startKey
      (fun s => s.mode = ModeStart ∨ s.mode = ModeLevels) (by
        intro s x s' hI hs
        unfold Game.startKey at hs
        split_ifs at hs
        · cases hs; exact Or.inr rfl
        · cases hs; exact hI) e.keys g g' (Or.inl h0) h
    rcases this with hm | hm
    · exact Or.inl (hm.trans h0.symm)
    · exact Or.inr (Or.inl (Or.inl ⟨h0, hm⟩))
  · have := forKeys_invariant (Game.levelsKey e)
      (fun s => s.mode = ModeLevels ∨ s.mode = ModePlay) (by
        intro s x s' hI hs
        have hstart : ∀ d, s.startLevel e d = .ok s' →
            s'.mode = ModeLevels ∨ s'.mode = ModePlay := by
          intro d hd
          unfold Game.startLevel at hd
          split_ifs at hd
          · obtain ⟨s1, _, hd⟩ := Outcome.bind_eq_ok hd
            cases hd
            exact Or.inr rfl
          · cases hd; exact hI
        unfold Game.levelsKey at hs
        split_ifs at hs
        · exact hstart _ hs
        · exact hstart _ hs
        · exact hstart _ hs
        · cases hs; exact hI) e.keys g g' (Or.inl h1) h
    rcases this with hm | hm
    · exact Or.inl (hm.trans h1.symm)
    · exact Or.inr (Or.inl (Or.inr (Or.inl ⟨h1, hm⟩)))
  · obtain ⟨g1, hc, hf⟩ := Outcome.bind_eq_ok h
    obtain ⟨_, hm1⟩ := playCollide_frame g g1 e hc
    obtain ⟨_, _, _, _, _, hm2⟩ := playFinish_ok g1 g' hf
    rw [hm2]
    split_ifs
    · exact Or.inr (Or.inl (Or.inr (Or.inr (Or.inr (Or.inr (Or.inr (Or.inl ⟨h3, rfl⟩)))))))
    · exact Or.inr (Or.inl (Or.inr (Or.inr (Or.inr (Or.inr (Or.inl ⟨h3, rfl⟩))))))
    · rcases hm1 with hm1 | hm1
      · exact Or.inl hm1
      · exact Or.inr (Or.inl (Or.inr (Or.inr (Or.inl ⟨h3, hm1⟩))))
  · have := forKeys_invariant Game.pauseKey
      (fun s => s.mode = ModePause ∨ s.mode = ModePlay ∨ s.mode = ModeStart) (by
        intro s x s' hI hs
        unfold Game.pauseKey at hs
        split_ifs at hs
        · cases hs; exact Or.inr (Or.inl rfl)
        · cases hs; exact Or.inr (Or.inr rfl)
        · cases hs; exact hI) e.keys g g' (Or.inl h4) h
    rcases this with hm | hm | hm
    · exact Or.inl (hm.trans h4.symm)
    · exact Or.inr (Or.inl (Or.inr (Or.inr (Or.inr (Or.inl ⟨h4, hm⟩)))))
    · exact Or.inr (Or.inr ⟨h4, hm⟩)
  · have := forKeys_invariant Game.overKey
      (fun s => s.mode = ModeOver ∨ s.mode = ModeLevels) (by
        intro s x s' hI hs
        unfold Game.overKey at hs
        split_ifs at hs
        · cases hs; exact Or.inr rfl
        · cases hs; exact hI) e.keys { g with inited := false } g' (Or.inl h5) h
    rcases this with hm | hm
    · exact Or.inl (hm.trans h5.symm)
    · exact Or.inr (Or.inl (Or.inr (Or.inr (Or.inr (Or.inr (Or.inr (Or.inr (Or.inl
        ⟨h5, Or.inr hm⟩))))))))
  · have := forKeys_invariant Game.wonKey
      (fun s => s.mode = ModeWon ∨ s.mode = ModeStart) (by
        intro s x s' hI hs
        unfold Game.wonKey at hs
        split_ifs at hs
        · cases hs; exact Or.inr rfl
        · cases hs; exact hI) e.keys { g with inited := false } g' (Or.inl h6) h
    rcases this with hm | hm
    · exact Or.inl (hm.trans h6.symm)
    · exact Or.inr (Or.inl (Or.inr (Or.inr (Or.inr (Or.inr (Or.inr (Or.inr (Or.inr
        ⟨h6, Or.inl hm⟩))))))))
  · cases h
    exact Or.inl rfl

/-- C8 fails as stated: with key M pressed a paused game goes to `ModeStart`,
which changes the mode along an edge that is not in the list. -/
theorem C8_paused_to_start :
    samplePaused.mode = ModePause ∧
    Option.map Game.mode (samplePaused.Update sampleKeyM).toOption = some ModeStart ∧
    ModeStart ≠ ModePause ∧ ¬ listedEdge ModePause ModeStart := by
  refine ⟨rfl, ?_, ?_, ?_⟩ <;> decide!

/-- Witness of C8 (as amended): the update of the paused game with key M. -/
theorem C8_mode_transitions_witness :
    samplePaused.Update sampleKeyM =
      .ok { samplePaused with inited := false, mode := ModeStart } ∧
    (ModeStart = ModePause ∨ listedEdge ModePause ModeStart ∨
      (ModePause = ModePause ∧ ModeStart = ModeStart)) :=
  ⟨by decide!, C8_mode_transitions samplePaused
    { samplePaused with inited := false, mode := ModeStart } sampleKeyM (by decide!)⟩

/-! ## States the running program can be in -/

/-- `init` sets the health to 100. -/
theorem init_health (g g' : Game) (d : Int) (e : Env) (h : g.init d e = .ok g') :
    g'.playerHealth = 100 := by
  unfold Game.init at h
  simp only [] at h
  split_ifs at h
  cases h
  rfl

/-- While the program is playing or paused the player has health left: a
playing update that ends with `playerHealth <= 0` leaves `ModePlay`. -/
theorem reachable_health (g : Game) (hr : Reachable g) :
    (g.mode = ModePlay ∨ g.mode = ModePause) → 0 < g.playerHealth := by
  induction hr with
  | start => intro h; rcases h with h | h <;> exact absurd h (by decide)
  | step g g' e _ h ih =>
    unfold Game.Update at h
    split_ifs at h with h0 h1 h3 h4 h5 h6
    · have := forKeys_invariant Game.startKey
        (fun s => s.mode = ModeStart ∨ s.mode = ModeLevels) (by
          intro s x s' hI hs
          unfold Game.startKey at hs
          split_ifs at hs
          · cases hs; exact Or.inr rfl
          · cases hs; exact hI) e.keys g g' (Or.inl h0) h
      intro hm
      rcases this with hs | hs <;> rcases hm with hm | hm <;>
        exact absurd (hs.symm.trans hm) (by decide)
    · have := forKeys_invariant (Game.levelsKey e)
        (fun s => s.mode = ModeLevels ∨ (s.mode = ModePlay ∧ s.playerHealth = 100)) (by
          intro s x s' hI hs
          have hstart : ∀ d, s.startLevel e d = .ok s' →
              s'.mode = ModeLevels ∨ (s'.mode = ModePlay ∧ s'.playerHealth = 100) := by
            intro d hd
            unfold Game.startLevel at hd
            split_ifs at hd
            · obtain ⟨s1, hi, hd⟩ := Outcome.bind_eq_ok hd
              cases hd
              exact Or.inr ⟨rfl, init_health s s1 d e hi⟩
            · cases hd; exact hI
          unfold Game.levelsKey at hs
          split_ifs at hs
          · exact hstart _ hs
          · exact hstart _ hs
          · exact hstart _ hs
          · cases hs; exact hI) e.keys g g' (Or.inl h1) h
      intro hm
      rcases this with hs | ⟨_, hs⟩
      · rcases hm with hm | hm <;> exact absurd (hs.symm.trans hm) (by decide)
      · rw [hs]; decide
    · obtain ⟨g1, hc, hf⟩ := Outcome.bind_eq_ok h
      obtain ⟨f1, _, _, _, _, f6⟩ := playFinish_ok g1 g' hf
      intro hm
      rw [f6] at hm
      rw [f1]
      split_ifs at hm with hw ho
      · rcases hm with hm | hm <;> exact absurd hm (by decide)
      · rcases hm with hm | hm <;> exact absurd hm (by decide)
      · omega
    · have := forKeys_invariant Game.pauseKey
        (fun s => s.playerHealth = g.playerHealth) (by
          intro s x s' hI hs
          unfold Game.pauseKey at hs
          split_ifs at hs
          · cases hs; exact hI
          · cases hs; exact hI
          · cases hs; exact hI) e.keys g g' rfl h
      intro _
      rw [this]
      exact ih (Or.inr h4)
    · have := forKeys_invariant Game.overKey
        (fun s => s.mode = ModeOver ∨ s.mode = ModeLevels) (by
          intro s x s' hI hs
          unfold Game.overKey at hs
          split_ifs at hs
          · cases hs; exact Or.inr rfl
          · cases hs; exact hI) e.keys { g with inited := false } g' (Or.inl h5) h
      intro hm
      rcases this with hs | hs <;> rcases hm with hm | hm <;>
        exact absurd (hs.symm.trans hm) (by decide)
    · have := forKeys_invariant Game.wonKey
        (fun s => s.mode = ModeWon ∨ s.mode = ModeStart) (by
          intro s x s' hI hs
          unfold Game.wonKey at hs
          split_ifs at hs
          · cases hs; exact Or.inr rfl
          · cases hs; exact hI) e.keys { g with inited := false } g' (Or.inl h6) h
      intro hm
      rcases this with hs | hs <;> rcases hm with hm | hm <;>
        exact absurd (hs.symm.trans hm) (by decide)
    · cases h
      exact ih

/-! ## C9: the population without hits -/

/-- Writing slots `0 .. k-1` one after the other. -/
theorem foldl_set_range (f : Nat → Option Asteroid) (l : List (Option Asteroid)) :
    ∀ k, k ≤ l.length →
      ((List.range k).foldl (fun l i => l.set i (f i)) l).length = l.length ∧
      ∀ i, ((List.range k).foldl (fun l i => l.set i (f i)) l)[i]? =
        if i < k then some (f i) else l[i]? := by
  intro k
  induction k with
  | zero => intro _; simp
  | succ k ih =>
    intro hk
    obtain ⟨h1, h2⟩ := ih (by omega)
    rw [List.range_succ, List.foldl_append]
    simp only [List.foldl_cons, List.foldl_nil, List.length_set]
    refine ⟨h1, fun i => ?_⟩
    rw [List.getElem?_set, h1]
    by_cases hik : k = i
    · subst hik
      simp [hk]
      omega
    · rw [if_neg hik, h2 i]
      by_cases hlt : i < k
      · rw [if_pos hlt, if_pos (by omega)]
      · rw [if_neg hlt, if_neg (by omega)]

/-- What `init` returns for a difficulty in range. -/
theorem init_ok (g : Game) (e : Env) (d : Nat) (hd : d ≤ 40) :
    ∃ g0, g.init (d : Int) e = .ok g0 ∧ g0.fullOf (d : Int) ∧ g0.playerHealth = 100 ∧
      g0.miniAsteroids.asteroidsList = List.replicate 40 none ∧ g0.mode = g.mode ∧
      g0.inited = true := by
  unfold Game.init
  simp only []
  rw [if_neg (by simp only [maxDifficulty]; omega)]
  refine ⟨_, rfl, ⟨?_, ?_, ?_, ?_⟩, rfl, rfl, rfl, rfl⟩
  · simp [generateAsteroids, Game.resetRocket]
  · simp only [generateAsteroids, Game.resetRocket]
    rw [(foldl_set_range _ _ _ (le_refl _)).1]
    simp
  · intro i hi
    simp only [generateAsteroids, Game.resetRocket]
    rw [(foldl_set_range _ _ _ (le_refl _)).2 i]
    rw [if_pos (by simp; omega)]
    exact ⟨_, rfl⟩
  · rfl

/-- Stepping the first `n` slots, all of them valid: the call returns and slot
`i < n` holds the stepped asteroid, the others are as before. -/
theorem updateUpTo_total (s : Asteroids) : ∀ n : Nat,
    (∀ i, i < n → ∃ a, s.asteroidsList[i]? = some (some a)) →
    ∃ s', s.updateUpTo n = .ok s' ∧
      ∀ i, s'.asteroidsList[i]? =
        if i < n then (s.asteroidsList[i]?).map (Option.map Asteroid.Update)
        else s.asteroidsList[i]? := by
  intro n
  induction n with
  | zero => intro _; exact ⟨s, rfl, fun i => by simp⟩
  | succ n ih =>
    intro h
    obtain ⟨s1, h1, h2⟩ := ih (fun i hi => h i (by omega))
    obtain ⟨a, ha⟩ := h n (by omega)
    have hn : s1.asteroidsList[n]? = some (some a) := by
      rw [h2 n, if_neg (by omega)]; exact ha
    have hlen : n < s1.asteroidsList.length := by
      by_contra hc
      rw [List.getElem?_eq_none (by omega)] at hn
      cases hn
    refine ⟨⟨s1.asteroidsList.set n (some a.Update)⟩, ?_, fun i => ?_⟩
    · simp only [Asteroids.updateUpTo, h1, Outcome.bind_ok, hn]
    · simp only []
      rw [List.getElem?_set]
      by_cases hin : n = i
      · subst hin
        rw [if_pos rfl, if_pos hlen, if_pos (by omega), ha]
        rfl
      · rw [if_neg hin, h2 i]
        by_cases hlt : i < n
        · rw [if_pos hlt, if_pos (by omega)]
        · rw [if_neg hlt, if_neg (by omega)]

/-- A playing update in which the rocket overlaps no asteroid returns and keeps
the population. -/
theorem quiet_update (g : Game) (e : Env) (d : Int) (hfull : g.fullOf d)
    (hmode : g.mode = ModePlay) (hq : g.rocketFree e) :
    ∃ g', g.Update e = .ok g' ∧ g'.fullOf d := by
  obtain ⟨hc, hlen, hsome, hmini⟩ := hfull
  obtain ⟨hs, _⟩ := playMove_frame g e.keys
  obtain ⟨s1, s2, s3, s4, s5, _⟩ := hs
  have hhit : Game.hit (g.playMove e.keys) = .ok (g.playMove e.keys, -1, -1) := by
    unfold Game.hit
    apply hitLoop_miss
    intro j _ hj
    rw [s4, hc] at hj
    obtain ⟨b, hb⟩ := hsome j hj
    rw [← s2] at hb
    exact ⟨b, hb, hq j b hb⟩
  have hsplit : Game.splitOff (g.playMove e.keys) e (-1) (-1) = .ok (g.playMove e.keys) := by
    unfold Game.splitOff
    rw [if_neg (by simp)]
  have hmh : Game.miniHit (g.playMove e.keys) = .ok (g.playMove e.keys) := by
    unfold Game.miniHit
    rw [s5, hmini]
    rfl
  obtain ⟨g1, h1⟩ := shipHitUpTo_total (g.playMove e.keys)
    (g.playMove e.keys).AsteroidsInGame.toNat (by
      intro i hi
      rw [s4, hc] at hi
      rw [s2]
      exact hsome i (by omega))
  have e1 := shipHitUpTo_ok _ _ g1 h1
  have hcc : Game.collissonCheck (g.playMove e.keys) = .ok g1 := by
    unfold Game.collissonCheck Game.ship_hit_asteroid
    rw [h1, Outcome.bind_ok]
    unfold Game.ship_hit_mini_asteroid
    rw [e1]
    simp only []
    rw [s5, hmini]
    rfl
  have hpc : g.playCollide e = .ok g1 := by
    unfold Game.playCollide
    rw [hhit, Outcome.bind_ok]
    simp only []
    rw [hsplit, Outcome.bind_ok, hmh, Outcome.bind_ok, hcc]
  have g1a : g1.asteroids = g.asteroids := by rw [e1]; exact s2
  have g1c : g1.AsteroidsInGame = d := by rw [e1]; exact s4.trans hc
  have g1m : g1.miniAsteroidsInGame = 0 := by rw [e1]; exact s5.trans hmini
  obtain ⟨sa, hsa, hsa'⟩ := updateUpTo_total g1.asteroids g1.AsteroidsInGame.toNat (by
    intro i hi
    rw [g1a]
    exact hsome i (by omega))
  have hfin : g1.playFinish = .ok
      (if (d = 0 ∧ (0 : Int) = 0) then
        { (if g1.playerHealth ≤ 0 then { g1 with asteroids := sa, mode := ModeOver }
            else { g1 with asteroids := sa }) with mode := ModeWon }
       else (if g1.playerHealth ≤ 0 then { g1 with asteroids := sa, mode := ModeOver }
            else { g1 with asteroids := sa })) := by
    unfold Game.playFinish Asteroids.Update Asteroids.miniUpdate
    rw [hsa, Outcome.bind_ok]
    simp only []
    rw [g1m]
    simp only [Int.toNat_zero, Asteroids.updateUpTo, Outcome.bind_ok]
    rw [g1c]
    split_ifs <;> simp_all
  refine ⟨_, (Update_play g e hmode).trans (by rw [hpc, Outcome.bind_ok]; exact hfin), ?_⟩
  have hlen' : sa.asteroidsList.length = g.asteroids.asteroidsList.length := by
    rw [← g1a]
    exact updateUpTo_length _ _ _ hsa
  have hsome' : ∀ i : Nat, (i : Int) < d → ∃ a, sa.asteroidsList[i]? = some (some a) := by
    intro i hi
    rw [hsa' i, if_pos (by omega), g1a]
    obtain ⟨a, ha⟩ := hsome i hi
    exact ⟨a.Update, by rw [ha]; rfl⟩
  split_ifs <;> exact ⟨g1c, by rw [← hlen]; exact_mod_cast hlen', hsome', g1m⟩

/-- The population is kept along every run of quiet playing updates. -/
theorem quietReach_fullOf (g0 : Game) (d : Int) (h0 : g0.fullOf d) :
    ∀ g, QuietReach g0 g → g.fullOf d := by
  intro g hr
  induction hr with
  | start => exact h0
  | step g1 g2 e _ hmode hq hu ih =>
    obtain ⟨g3, h3, hf⟩ := quiet_update g1 e d ih hmode hq
    rw [h3] at hu
    cases hu
    exact hf

/-- A level key pressed while the game is not inited runs `init` and enters
`ModePlay`. -/
theorem startLevel_fresh (g g0 : Game) (e : Env) (d : Int) (hi : g.inited = false)
    (h0 : g.init d e = .ok g0) :
    g.startLevel e d = .ok { g0 with mode := ModePlay } := by
  unfold Game.startLevel
  rw [hi, h0]
  rfl

/-- C9. Population is stable without hits: for each level key 1/2/3 with
`d = 5/10/20`, `init(d)` returns with exactly `d` large asteroids
(`AsteroidsInGame` = length of the large list = `d`, every slot filled), no
small asteroid (counter 0, all 40 slots nil) and health 100, and the key starts the game from that state when it is not yet
inited; and after any number of playing updates in which the rocket overlaps no
asteroid, `AsteroidsInGame` is still `d`, the large list still has `d` entries
and `miniAsteroidsInGame` is still 0. Each such update returns (it neither
panics nor exits). -/
theorem C9_population_stable (g : Game) (e : Env) (d : Nat) (hd : d = 5 ∨ d = 10 ∨ d = 20) :
    ∃ g0, g.init (d : Int) e = .ok g0 ∧
      g0.AsteroidsInGame = (d : Int) ∧ g0.asteroids.asteroidsList.length = d ∧
      (∀ i, i < d → ∃ a, g0.asteroids.asteroidsList[i]? = some (some a)) ∧
      g0.miniAsteroidsInGame = 0 ∧ g0.miniAsteroids.asteroidsList = List.replicate 40 none ∧
      g0.playerHealth = 100 ∧
      (g.inited = false →
        (d = 5 → g.levelsKey e Key1 = .ok { g0 with mode := ModePlay }) ∧
        (d = 10 → g.levelsKey e Key2 = .ok { g0 with mode := ModePlay }) ∧
        (d = 20 → g.levelsKey e Key3 = .ok { g0 with mode := ModePlay })) ∧
      (∀ g', QuietReach { g0 with mode := ModePlay } g' →
        g'.AsteroidsInGame = (d : Int) ∧ g'.asteroids.asteroidsList.length = d ∧
        g'.miniAsteroidsInGame = 0) ∧
      (∀ g' e', QuietReach { g0 with mode := ModePlay } g' → g'.mode = ModePlay →
        g'.rocketFree e' → ∃ g'', g'.Update e' = .ok g'') := by
  obtain ⟨g0, h0, hfull, hhealth, hnone, _, _⟩ := init_ok g e d (by omega)
  have hfull' : Game.fullOf { g0 with mode := ModePlay } (d : Int) := hfull
  refine ⟨g0, h0, hfull.1, by exact_mod_cast hfull.2.1,
    fun i hi => hfull.2.2.1 i (by exact_mod_cast hi), hfull.2.2.2, hnone, hhealth, ?_, ?_, ?_⟩
  · intro hi
    refine ⟨?_, ?_, ?_⟩
    · intro h5
      subst h5
      simp only [Game.levelsKey, if_true]
      exact startLevel_fresh g g0 e _ hi h0
    · intro h10
      subst h10
      simp only [Game.levelsKey, if_true]
      exact startLevel_fresh g g0 e _ hi h0
    · intro h20
      subst h20
      simp only [Game.levelsKey, if_true]
      exact startLevel_fresh g g0 e _ hi h0
  · intro g' hr
    obtain ⟨a1, a2, _, a4⟩ := quietReach_fullOf _ _ hfull' g' hr
    exact ⟨a1, by exact_mod_cast a2, a4⟩
  · intro g' e' hr hmode hq
    obtain ⟨g'', h, _⟩ := quiet_update g' e' _ (quietReach_fullOf _ _ hfull' g' hr) hmode hq
    exact ⟨g'', h⟩

/-- Witness of C9: level key 1 on the level-select screen of a fresh game. -/
theorem C9_population_stable_witness :
    ∃ g0, sampleLevels.init 5 sampleEager = .ok g0 ∧ g0.AsteroidsInGame = 5 ∧
      g0.asteroids.asteroidsList.length = 5 ∧ g0.miniAsteroidsInGame = 0 ∧
      g0.playerHealth = 100 ∧
      sampleLevels.levelsKey sampleEager Key1 = .ok { g0 with mode := ModePlay } ∧
      ∀ g', QuietReach { g0 with mode := ModePlay } g' →
        g'.AsteroidsInGame = 5 ∧ g'.asteroids.asteroidsList.length = 5 ∧
        g'.miniAsteroidsInGame = 0 := by
  obtain ⟨g0, h0, h1, h2, _, h3, _, h4, h5, h6, _⟩ :=
    C9_population_stable sampleLevels sampleEager 5 (Or.inl rfl)
  exact ⟨g0, h0, h1, h2, h3, h4, (h5 rfl).1 rfl, h6⟩

/-! ## C10: removal during the pass -/

/-- C10 (evaluation at the failing input). In `sampleTwoHits` the pass of `hit`
removes large asteroid 0, which resets the rocket to the launch position, and
then ends without testing the asteroid that followed it, although that one
overlaps the rocket there: it stays in the list. The reference pass tests it
and removes it too. The same happens in `miniHit`. -/
theorem C10_removal_skips_next :
    Option.map (fun r => (r.1.asteroids.asteroidsList, r.1.AsteroidsInGame))
        sampleTwoHits.hit.toOption = some ([some (sampleAsteroid 350 420)], 1) ∧
    Option.map (fun r => (r.1.asteroids.asteroidsList, r.1.AsteroidsInGame))
        sampleTwoHits.hitRef.toOption = some ([], 0) ∧
    Option.map (fun r => (r.miniAsteroids.asteroidsList, r.miniAsteroidsInGame))
        sampleTwoHits.miniHit.toOption = some ([some (sampleMini 380 460), none], 1) ∧
    Option.map (fun r => (r.miniAsteroids.asteroidsList, r.miniAsteroidsInGame))
        sampleTwoHits.miniHitRef.toOption = some ([none], 0) ∧
    Game.rocketHits sampleTwoHits.atLaunch (sampleAsteroid 350 420) ∧
    Game.rocketHitsMini sampleTwoHits.atLaunch (sampleMini 380 460) := by
  refine ⟨?_, ?_, ?_, ?_, ?_, ?_⟩ <;> decide!

/-! ## C11: counters and lists -/

/-- Removing slot `i` of a list whose first `n` slots are filled leaves the
first `n - 1` slots filled. -/
theorem slotsFilled_eraseIdx (l : List (Option Asteroid)) (n : Int) (i : Nat)
    (h : slotsFilled l n) : slotsFilled (l.eraseIdx i) (n - 1) := by
  intro j hj
  rw [List.getElem?_eraseIdx]
  split_ifs
  · exact h j (by omega)
  · exact h (j + 1) (by push_cast; omega)

/-- Filling slot `i = n` extends the filled part by one. -/
theorem slotsFilled_set (l : List (Option Asteroid)) (n : Nat) (a : Asteroid)
    (h : slotsFilled l n) (hn : n < l.length) :
    slotsFilled (l.set n (some a)) ((n : Int) + 1) := by
  intro j hj
  rw [List.getElem?_set]
  by_cases hjn : n = j
  · rw [if_pos hjn, if_pos hn]
    exact ⟨a, rfl⟩
  · rw [if_neg hjn]
    exact h j (by omega)

/-- A filled slot lies inside the list. -/
theorem slotsFilled_le_length (l : List (Option Asteroid)) (n : Nat)
    (h : slotsFilled l n) : n ≤ l.length := by
  by_contra hc
  obtain ⟨a, ha⟩ := h l.length (by omega)
  rw [List.getElem?_eq_none (le_refl _)] at ha
  cases ha

/-- The loop of `hit` keeps the large list consistent; it returns its arguments
unchanged or lowers `AsteroidsInGame`. -/
theorem hitLoop_consistent (fuel : Nat) : ∀ (i : Nat) (g : Game) (x y : ℚ) (r : Game × ℚ × ℚ),
    Game.hitLoop fuel i g x y = .ok r → g.largeConsistent →
    r.1.largeConsistent ∧ (r = (g, x, y) ∨ r.1.AsteroidsInGame + 1 ≤ g.AsteroidsInGame) := by
  induction fuel with
  | zero =>
    intro i g x y r h hc
    simp only [Game.hitLoop] at h
    cases h
    exact ⟨hc, Or.inl rfl⟩
  | succ n ih =>
    intro i g x y r h hc
    unfold Game.hitLoop at h
    split_ifs at h with hi
    · split at h
      · rename_i a ha
        split_ifs at h
        · have hlt : i < g.asteroids.asteroidsList.length := by
            have := hc.1
            omega
          have h1 := ih _ _ _ _ r h ⟨by
              show g.AsteroidsInGame - 1 = ((blowUp g.asteroids.asteroidsList i).length : Int)
              rw [blowUp_eq_eraseIdx, List.length_eraseIdx, if_pos hlt, hc.1]
              omega, by
              show slotsFilled (blowUp g.asteroids.asteroidsList i) (g.AsteroidsInGame - 1)
              rw [blowUp_eq_eraseIdx]
              exact slotsFilled_eraseIdx _ _ _ hc.2⟩
          refine ⟨h1.1, Or.inr ?_⟩
          rcases h1.2 with h2 | h2
          · rw [h2]
            show g.AsteroidsInGame - 1 + 1 ≤ g.AsteroidsInGame
            omega
          · have h3 : r.1.AsteroidsInGame + 1 ≤ g.AsteroidsInGame - 1 := h2
            omega
        · exact ih _ _ _ _ r h hc
      · cases h
    · cases h
      exact ⟨hc, Or.inl rfl⟩

/-- On a consistent large list the loop of `hit` returns. -/
theorem hitLoop_total (fuel : Nat) : ∀ (i : Nat) (g : Game) (x y : ℚ),
    g.largeConsistent → ∃ r, Game.hitLoop fuel i g x y = .ok r := by
  induction fuel with
  | zero => intro i g x y _; exact ⟨_, rfl⟩
  | succ n ih =>
    intro i g x y hc
    unfold Game.hitLoop
    by_cases hi : (i : Int) < g.AsteroidsInGame
    · obtain ⟨a, ha⟩ := hc.2 i hi
      rw [if_pos hi, ha]
      simp only []
      have hlt : i < g.asteroids.asteroidsList.length := by
        have := hc.1
        omega
      split_ifs
      · exact ih _ _ _ _ ⟨by
            show g.AsteroidsInGame - 1 = ((blowUp g.asteroids.asteroidsList i).length : Int)
            rw [blowUp_eq_eraseIdx, List.length_eraseIdx, if_pos hlt, hc.1]
            omega, by
            show slotsFilled (blowUp g.asteroids.asteroidsList i) (g.AsteroidsInGame - 1)
            rw [blowUp_eq_eraseIdx]
            exact slotsFilled_eraseIdx _ _ _ hc.2⟩
      · exact ih _ _ _ _ hc
    · rw [if_neg hi]
      exact ⟨_, rfl⟩

/-- The loop of `miniHit` keeps the small list consistent and keeps the number
of free slots, length minus counter. -/
theorem miniHitLoop_consistent (fuel : Nat) : ∀ (i : Nat) (g g' : Game),
    Game.miniHitLoop fuel i g = .ok g' → g.miniConsistent →
    g'.miniConsistent ∧
      (g'.miniAsteroids.asteroidsList.length : Int) - g'.miniAsteroidsInGame =
        (g.miniAsteroids.asteroidsList.length : Int) - g.miniAsteroidsInGame := by
  induction fuel with
  | zero =>
    intro i g g' h hc
    simp only [Game.miniHitLoop] at h
    cases h
    exact ⟨hc, rfl⟩
  | succ n ih =>
    intro i g g' h hc
    unfold Game.miniHitLoop at h
    split_ifs at h with hi
    · split at h
      · split_ifs at h
        · have hlt : i < g.miniAsteroids.asteroidsList.length := by
            have := hc.2.1
            omega
          have hlen : ((blowUp g.miniAsteroids.asteroidsList i).length : Int) =
              (g.miniAsteroids.asteroidsList.length : Int) - 1 := by
            rw [blowUp_eq_eraseIdx, List.length_eraseIdx, if_pos hlt]
            omega
          have h1 := ih _ _ g' h ⟨by
              show 0 ≤ g.miniAsteroidsInGame - 1
              omega, by
              show g.miniAsteroidsInGame - 1 ≤
                ((blowUp g.miniAsteroids.asteroidsList i).length : Int)
              rw [hlen]
              have := hc.2.1
              omega, by
              show slotsFilled (blowUp g.miniAsteroids.asteroidsList i)
                (g.miniAsteroidsInGame - 1)
              rw [blowUp_eq_eraseIdx]
              exact slotsFilled_eraseIdx _ _ _ hc.2.2⟩
          refine ⟨h1.1, h1.2.trans ?_⟩
          show ((blowUp g.miniAsteroids.asteroidsList i).length : Int) -
            (g.miniAsteroidsInGame - 1) = _
          rw [hlen]
          omega
        · exact ih _ _ g' h hc
      · cases h
    · cases h
      exact ⟨hc, rfl⟩

/-- On a consistent small list the loop of `miniHit` returns. -/
theorem miniHitLoop_total (fuel : Nat) : ∀ (i : Nat) (g : Game),
    g.miniConsistent → ∃ g', Game.miniHitLoop fuel i g = .ok g' := by
  induction fuel with
  | zero => intro i g _; exact ⟨_, rfl⟩
  | succ n ih =>
    intro i g hc
    unfold Game.miniHitLoop
    by_cases hi : (i : Int) < g.miniAsteroidsInGame
    · obtain ⟨a, ha⟩ := hc.2.2 i hi
      rw [if_pos hi, ha]
      simp only []
      have hlt : i < g.miniAsteroids.asteroidsList.length := by
        have := hc.2.1
        omega
      have hlen : ((blowUp g.miniAsteroids.asteroidsList i).length : Int) =
          (g.miniAsteroids.asteroidsList.length : Int) - 1 := by
        rw [blowUp_eq_eraseIdx, List.length_eraseIdx, if_pos hlt]
        omega
      split_ifs
      · exact ih _ _ ⟨by
            show 0 ≤ g.miniAsteroidsInGame - 1
            omega, by
            show g.miniAsteroidsInGame - 1 ≤
              ((blowUp g.miniAsteroids.asteroidsList i).length : Int)
            rw [hlen]
            have := hc.2.1
            omega, by
            show slotsFilled (blowUp g.miniAsteroids.asteroidsList i)
              (g.miniAsteroidsInGame - 1)
            rw [blowUp_eq_eraseIdx]
            exact slotsFilled_eraseIdx _ _ _ hc.2.2⟩
      · exact ih _ _ hc
    · rw [if_neg hi]
      exact ⟨_, rfl⟩

/-- The split-off loop, whatever the interleaving: when it returns, it has kept
the length of the small list, has not lowered the counter, and has left the
small list consistent. -/
theorem spawnLoop_consistent (e : Env) (x y : ℚ) (m : Nat) (fuel : Nat) :
    ∀ (k : Nat) (g g' : Game),
    Game.spawnLoop e x y (m : Int) fuel k g = .ok g' →
    g.miniAsteroidsInGame = (m : Int) + (k : Int) →
    (m : Int) + (k : Int) ≤ (g.miniAsteroids.asteroidsList.length : Int) →
    slotsFilled g.miniAsteroids.asteroidsList g.miniAsteroidsInGame →
    g'.miniAsteroids.asteroidsList.length = g.miniAsteroids.asteroidsList.length ∧
    g.miniAsteroidsInGame ≤ g'.miniAsteroidsInGame ∧ g'.miniConsistent := by
  induction fuel with
  | zero =>
    intro k g g' h hm hle hs
    simp only [Game.spawnLoop] at h
    cases h
    exact ⟨rfl, le_refl _, by omega, by omega, hs⟩
  | succ n ih =>
    intro k g g' h hm hle hs
    simp only [Game.spawnLoop] at h
    split_ifs at h with hc hb
    · have hidx : ((m : Int) + (k : Int)).toNat = m + k := by omega
      rw [hidx] at h hb
      have h1 := ih (k + 1) _ g' h (by
          show g.miniAsteroidsInGame + 1 = (m : Int) + ((k + 1 : Nat) : Int)
          push_cast; omega) (by
          show (m : Int) + ((k + 1 : Nat) : Int) ≤
            (((g.miniAsteroids.asteroidsList.set (m + k) _).length : Nat) : Int)
          rw [List.length_set]
          push_cast; omega) (by
          show slotsFilled (g.miniAsteroids.asteroidsList.set (m + k) _)
            (g.miniAsteroidsInGame + 1)
          rw [hm]
          have := slotsFilled_set g.miniAsteroids.asteroidsList (m + k)
            (newMiniAsteroid x y (e.split (m + k))) (by rw [hm] at hs; exact_mod_cast hs) hb.2
          exact_mod_cast this)
      obtain ⟨a1, a2, a3⟩ := h1
      refine ⟨?_, ?_, a3⟩
      · rw [a1]
        exact List.length_set _ _ _
      · have : g.miniAsteroidsInGame + 1 ≤ g'.miniAsteroidsInGame := a2
        omega
    · cases h
      exact ⟨rfl, le_refl _, by omega, by omega, hs⟩

/-- The split-off block keeps a consistent small list consistent, whatever the
interleaving. -/
theorem splitOff_consistent (g g' : Game) (e : Env) (x y : ℚ)
    (h : g.splitOff e x y = .ok g') (hc : g.miniConsistent) :
    g'.miniConsistent ∧
      g'.miniAsteroids.asteroidsList.length = g.miniAsteroids.asteroidsList.length := by
  unfold Game.splitOff at h
  split_ifs at h
  · obtain ⟨m, hm⟩ : ∃ m : Nat, g.miniAsteroidsInGame = (m : Int) :=
      ⟨_, (Int.toNat_of_nonneg hc.1).symm⟩
    rw [hm] at h
    obtain ⟨a1, _, a3⟩ := spawnLoop_consistent e x y m _ 0 g g' h (by simp [hm])
      (by have := hc.2.1; simp; omega) hc.2.2
    exact ⟨a3, a1⟩
  · cases h
    exact ⟨hc, rfl⟩

/-- With valid slots below both counters `collissonCheck` returns. -/
theorem collissonCheck_total (g : Game) (hl : slotsFilled g.asteroids.asteroidsList g.AsteroidsInGame)
    (hm : slotsFilled g.miniAsteroids.asteroidsList g.miniAsteroidsInGame) :
    ∃ g', g.collissonCheck = .ok g' := by
  obtain ⟨g1, h1⟩ := shipHitUpTo_total g g.AsteroidsInGame.toNat (fun i hi => hl i (by omega))
  have e1 := shipHitUpTo_ok g _ g1 h1
  obtain ⟨g2, h2⟩ := shipHitMiniUpTo_total g1 g1.miniAsteroidsInGame.toNat (by
    intro i hi
    rw [e1] at hi ⊢
    exact hm i (by simp only [] at hi; omega))
  refine ⟨g2, ?_⟩
  unfold Game.collissonCheck Game.ship_hit_asteroid
  rw [h1]
  exact h2

/-- Stepping slots keeps filled slots filled. -/
theorem updateUpTo_slotsFilled (s s' : Asteroids) (n : Nat) (c : Int)
    (hv : slotsFilled s.asteroidsList n) (h : s.updateUpTo n = .ok s')
    (hs : slotsFilled s.asteroidsList c) : slotsFilled s'.asteroidsList c := by
  obtain ⟨s1, h1, h2⟩ := updateUpTo_total s n (fun i hi => hv i (by exact_mod_cast hi))
  rw [h1] at h
  cases h
  intro i hi
  obtain ⟨a, ha⟩ := hs i hi
  rw [h2 i, ha]
  split_ifs
  · exact ⟨a.Update, rfl⟩
  · exact ⟨a, rfl⟩

/-- On a consistent state the end of the playing update returns. -/
theorem playFinish_total (g : Game) (hc : g.consistent) : ∃ g', g.playFinish = .ok g' := by
  obtain ⟨s1, h1, _⟩ := updateUpTo_total g.asteroids g.AsteroidsInGame.toNat
    (fun i hi => hc.1.2 i (by omega))
  obtain ⟨s2, h2, _⟩ := updateUpTo_total g.miniAsteroids g.miniAsteroidsInGame.toNat
    (fun i hi => hc.2.2.2 i (by omega))
  unfold Game.playFinish Asteroids.Update Asteroids.miniUpdate
  rw [h1, Outcome.bind_ok]
  simp only []
  rw [h2, Outcome.bind_ok]
  exact ⟨_, rfl⟩

/-- The end of the playing update keeps a consistent state consistent. -/
theorem playFinish_consistent (g g' : Game) (h : g.playFinish = .ok g') (hc : g.consistent) :
    g'.consistent := by
  obtain ⟨_, f2, f3, f4, f5, _⟩ := playFinish_ok g g' h
  unfold Game.playFinish Asteroids.Update Asteroids.miniUpdate at h
  obtain ⟨s1, h1, h⟩ := Outcome.bind_eq_ok h
  simp only [] at h
  obtain ⟨s2, h2, h⟩ := Outcome.bind_eq_ok h
  have k1 := updateUpTo_slotsFilled _ _ _ g.AsteroidsInGame
    (fun i hi => hc.1.2 i (by omega)) h1 hc.1.2
  have k2 := updateUpTo_slotsFilled _ _ _ g.miniAsteroidsInGame
    (fun i hi => hc.2.2.2 i (by omega)) h2 hc.2.2.2
  have ha : g'.asteroids = s1 := by
    cases h
    split_ifs <;> rfl
  have hb : g'.miniAsteroids = s2 := by
    cases h
    split_ifs <;> rfl
  refine ⟨⟨?_, ?_⟩, ?_, ?_, ?_⟩
  · rw [f2, f4]; exact hc.1.1
  · rw [f2, ha]; exact k1
  · rw [f3]; exact hc.2.1
  · rw [f3, f5]; exact hc.2.2.1
  · rw [f3, hb]; exact k2

/-- The part of the playing update up to the collision checks keeps the
counters consistent with the lists, whatever the interleaving. -/
theorem playCollide_consistent (g g' : Game) (e : Env) (h : g.playCollide e = .ok g')
    (hc : g.consistent) : g'.consistent := by
  unfold Game.playCollide at h
  obtain ⟨r, hr, h⟩ := Outcome.bind_eq_ok h
  obtain ⟨g1, h1, h⟩ := Outcome.bind_eq_ok h
  obtain ⟨g2, h2, h3⟩ := Outcome.bind_eq_ok h
  obtain ⟨⟨_, s2, s3, s4, s5, _⟩, _⟩ := playMove_frame g e.keys
  have c0 : (g.playMove e.keys).consistent := by
    refine ⟨⟨?_, ?_⟩, ?_, ?_, ?_⟩
    · rw [s4, s2]; exact hc.1.1
    · rw [s4, s2]; exact hc.1.2
    · rw [s5]; exact hc.2.1
    · rw [s5, s3]; exact hc.2.2.1
    · rw [s5, s3]; exact hc.2.2.2
  obtain ⟨cr, _⟩ := hitLoop_consistent _ 0 _ (-1) (-1) r hr c0.1
  obtain ⟨_, _, a3, a4, _⟩ := hit_frame _ r hr
  have cr2 : r.1.miniConsistent := by
    refine ⟨?_, ?_, ?_⟩
    · rw [a4]; exact c0.2.1
    · rw [a4, a3]; exact c0.2.2.1
    · rw [a4, a3]; exact c0.2.2.2
  obtain ⟨c1, _⟩ := splitOff_consistent _ _ _ _ _ h1 cr2
  obtain ⟨_, _, b3, b4, _⟩ := splitOff_frame _ _ _ _ _ h1
  have c1l : g1.largeConsistent := by
    refine ⟨?_, ?_⟩
    · rw [b4, b3]; exact cr.1
    · rw [b4, b3]; exact cr.2
  obtain ⟨c2, _⟩ := miniHitLoop_consistent _ 0 g1 g2 h2 c1
  obtain ⟨_, _, d3, d4, _⟩ := miniHit_frame _ _ h2
  have c2l : g2.largeConsistent := by
    refine ⟨?_, ?_⟩
    · rw [d4, d3]; exact c1l.1
    · rw [d4, d3]; exact c1l.2
  obtain ⟨_, _, e3, e4, e5, e6⟩ := collissonCheck_frame _ _ h3
  refine ⟨⟨?_, ?_⟩, ?_, ?_, ?_⟩
  · rw [e5, e3]; exact c2l.1
  · rw [e5, e3]; exact c2l.2
  · rw [e6]; exact c2.1
  · rw [e6, e4]; exact c2.2.1
  · rw [e6, e4]; exact c2.2.2

/-- A playing update that returns keeps the counters consistent with the
lists, whatever the inputs. -/
theorem play_update_consistent (g g' : Game) (e : Env) (hmode : g.mode = ModePlay)
    (h : g.Update e = .ok g') (hc : g.consistent) : g'.consistent := by
  rw [Update_play g e hmode] at h
  obtain ⟨g1, h1, h2⟩ := Outcome.bind_eq_ok h
  exact playFinish_consistent g1 g' h2 (playCollide_consistent g g1 e h1 hc)

/-- Consistency is an invariant of the playing updates, whatever the inputs. -/
theorem playReach_consistent (g0 : Game) (h0 : g0.consistent) :
    ∀ g, PlayReach g0 g → g.consistent := by
  intro g hr
  induction hr with
  | start => exact h0
  | step g1 g2 e _ hmode hu ih => exact play_update_consistent g1 g2 e hmode hu ih

/-- When no goroutine of the split-off loop runs before the loop has finished,
a playing update from a consistent state with two free small slots per large
asteroid returns, and the state it leads to has both properties again. -/
theorem play_update_deferred (g : Game) (e : Env) (hmode : g.mode = ModePlay)
    (hd : e.deferred) (hc : g.consistent) (hroom : g.roomy) :
    ∃ g', g.Update e = .ok g' ∧ g'.consistent ∧ g'.roomy := by
  obtain ⟨⟨_, s2, s3, s4, s5, _⟩, _⟩ := playMove_frame g e.keys
  have c0 : (g.playMove e.keys).consistent := by
    refine ⟨⟨?_, ?_⟩, ?_, ?_, ?_⟩
    · rw [s4, s2]; exact hc.1.1
    · rw [s4, s2]; exact hc.1.2
    · rw [s5]; exact hc.2.1
    · rw [s5, s3]; exact hc.2.2.1
    · rw [s5, s3]; exact hc.2.2.2
  have r0 : (g.playMove e.keys).roomy := by
    unfold Game.roomy at hroom ⊢
    rw [s5, s4, s3]; exact hroom
  -- the pass of `hit`
  obtain ⟨r, hr⟩ := hitLoop_total (g.playMove e.keys).AsteroidsInGame.toNat 0
    (g.playMove e.keys) (-1) (-1) c0.1
  obtain ⟨cr, hdrop⟩ := hitLoop_consistent _ 0 _ (-1) (-1) r hr c0.1
  obtain ⟨_, _, a3, a4, _⟩ := hit_frame _ r hr
  have cr2 : r.1.miniConsistent := by
    refine ⟨?_, ?_, ?_⟩
    · rw [a4]; exact c0.2.1
    · rw [a4, a3]; exact c0.2.2.1
    · rw [a4, a3]; exact c0.2.2.2
  have hL0 : 0 ≤ r.1.AsteroidsInGame := by rw [cr.1]; exact Int.natCast_nonneg _
  -- the split-off block
  have hsplit : ∃ g1, Game.splitOff r.1 e r.2.1 r.2.2 = .ok g1 ∧ g1.roomy := by
    by_cases hxy : r.2.1 ≠ -1 ∨ r.2.2 ≠ -1
    · have hdrop' : r.1.AsteroidsInGame + 1 ≤ (g.playMove e.keys).AsteroidsInGame := by
        rcases hdrop with h | h
        · exfalso
          rw [h] at hxy
          simp at hxy
        · exact h
      have hroom2 : r.1.miniAsteroidsInGame + 2 ≤
          (r.1.miniAsteroids.asteroidsList.length : Int) := by
        unfold Game.roomy at r0
        rw [a4, a3]
        omega
      obtain ⟨g1, h1, hcount, hlen, _⟩ := splitOff_deferred r.1 e r.2.1 r.2.2 hxy hd cr2.1 (by
        have : min (2 : Int) (40 - r.1.miniAsteroidsInGame) ≤ 2 := min_le_left _ _
        omega)
      refine ⟨g1, h1, ?_⟩
      obtain ⟨_, _, b3, b4, _⟩ := splitOff_frame _ _ _ _ _ h1
      unfold Game.roomy at r0 ⊢
      rw [hcount, hlen, b4]
      have : max (0 : Int) (min 2 (40 - r.1.miniAsteroidsInGame)) ≤ 2 :=
        max_le (by norm_num) (min_le_left _ _)
      rw [a4, a3] at *
      omega
    · refine ⟨r.1, by unfold Game.splitOff; rw [if_neg hxy], ?_⟩
      unfold Game.roomy at r0 ⊢
      rw [a4, a3]
      rcases hdrop with h | h
      · rw [h]; exact r0
      · omega
  obtain ⟨g1, h1, r1⟩ := hsplit
  obtain ⟨c1, _⟩ := splitOff_consistent _ _ _ _ _ h1 cr2
  obtain ⟨_, _, b3, b4, _⟩ := splitOff_frame _ _ _ _ _ h1
  have c1l : g1.largeConsistent := by
    refine ⟨?_, ?_⟩
    · rw [b4, b3]; exact cr.1
    · rw [b4, b3]; exact cr.2
  -- the pass of `miniHit`
  obtain ⟨g2, h2⟩ := miniHitLoop_total g1.miniAsteroidsInGame.toNat 0 g1 c1
  obtain ⟨c2, hfree⟩ := miniHitLoop_consistent _ 0 g1 g2 h2 c1
  obtain ⟨_, _, d3, d4, _⟩ := miniHit_frame _ _ h2
  have c2l : g2.largeConsistent := by
    refine ⟨?_, ?_⟩
    · rw [d4, d3]; exact c1l.1
    · rw [d4, d3]; exact c1l.2
  have r2 : g2.roomy := by
    unfold Game.roomy at r1 ⊢
    rw [d4]
    omega
  -- the ship checks
  obtain ⟨g3, h3⟩ := collissonCheck_total g2 c2l.2 c2.2.2
  obtain ⟨_, _, e3, e4, e5, e6⟩ := collissonCheck_frame _ _ h3
  have c3 : g3.consistent := by
    refine ⟨⟨?_, ?_⟩, ?_, ?_, ?_⟩
    · rw [e5, e3]; exact c2l.1
    · rw [e5, e3]; exact c2l.2
    · rw [e6]; exact c2.1
    · rw [e6, e4]; exact c2.2.1
    · rw [e6, e4]; exact c2.2.2
  have r3 : g3.roomy := by
    unfold Game.roomy at r2 ⊢
    rw [e6, e5, e4]; exact r2
  -- the asteroid steps and the mode checks
  obtain ⟨g4, h4⟩ := playFinish_total g3 c3
  obtain ⟨_, f2, f3, _, f5, _⟩ := playFinish_ok g3 g4 h4
  refine ⟨g4, ?_, playFinish_consistent g3 g4 h4 c3, ?_⟩
  · rw [Update_play g e hmode]
    unfold Game.playCollide
    have hr' : Game.hit (g.playMove e.keys) = .ok r := hr
    have h2' : g1.miniHit = .ok g2 := h2
    rw [hr', Outcome.bind_ok, h1, Outcome.bind_ok, h2', Outcome.bind_ok, h3, Outcome.bind_ok]
    exact h4
  · unfold Game.roomy at r3 ⊢
    rw [f3, f2, f5]; exact r3

/-- Consistency and room are invariants of the playing updates in which no
goroutine of the split-off loop runs before the loop has finished. -/
theorem playReachDeferred_invariant (g0 : Game) (h0 : g0.consistent) (hr0 : g0.roomy) :
    ∀ g, PlayReachDeferred g0 g → g.consistent ∧ g.roomy := by
  intro g hr
  induction hr with
  | start => exact ⟨h0, hr0⟩
  | step g1 g2 e _ hmode hd hu ih =>
    obtain ⟨g3, h3, hc, hroom⟩ := play_update_deferred g1 e hmode hd ih.1 ih.2
    rw [h3] at hu
    cases hu
    exact ⟨hc, hroom⟩

/-- The state `init(d)` leaves, `d <= 20`, is consistent and has two free small
slots per large asteroid; entering `ModePlay` does not change that. -/
theorem init_consistent (g g0 : Game) (e : Env) (d : Nat) (hd : d ≤ 20)
    (h : g.init (d : Int) e = .ok g0) :
    Game.consistent { g0 with mode := ModePlay } ∧ Game.roomy { g0 with mode := ModePlay } := by
  obtain ⟨g1, h1, hfull, _, hnone, _, _⟩ := init_ok g e d (by omega)
  rw [h1] at h
  cases h
  obtain ⟨f1, f2, f3, f4⟩ := hfull
  refine ⟨⟨⟨?_, ?_⟩, ?_, ?_, ?_⟩, ?_⟩
  · show g0.AsteroidsInGame = (g0.asteroids.asteroidsList.length : Int)
    rw [f1, f2]
  · show slotsFilled g0.asteroids.asteroidsList g0.AsteroidsInGame
    rw [f1]; exact f3
  · show 0 ≤ g0.miniAsteroidsInGame
    rw [f4]
  · show g0.miniAsteroidsInGame ≤ (g0.miniAsteroids.asteroidsList.length : Int)
    rw [f4]; exact Int.natCast_nonneg _
  · show slotsFilled g0.miniAsteroids.asteroidsList g0.miniAsteroidsInGame
    rw [f4]
    intro i hi
    omega
  · show g0.miniAsteroidsInGame + 2 * g0.AsteroidsInGame ≤
      (g0.miniAsteroids.asteroidsList.length : Int)
    rw [f4, f1, hnone]
    simp
    omega

/-- The state part of C11: in every state reached from `init(d)`, `d` one of 5,
10, 20, by playing updates, whatever the inputs and the interleaving,
`AsteroidsInGame` is the length of the large list,
`0 <= miniAsteroidsInGame <= ` length of the small list, and every slot below
each counter holds an asteroid. -/
theorem counters_consistent_from_init (g g0 g' : Game) (e : Env) (d : Nat)
    (hd : d = 5 ∨ d = 10 ∨ d = 20) (h : g.init (d : Int) e = .ok g0)
    (hr : PlayReach { g0 with mode := ModePlay } g') :
    g'.AsteroidsInGame = (g'.asteroids.asteroidsList.length : Int) ∧
    0 ≤ g'.miniAsteroidsInGame ∧
    g'.miniAsteroidsInGame ≤ (g'.miniAsteroids.asteroidsList.length : Int) ∧
    slotsFilled g'.asteroids.asteroidsList g'.AsteroidsInGame ∧
    slotsFilled g'.miniAsteroids.asteroidsList g'.miniAsteroidsInGame := by
  obtain ⟨⟨a1, a2⟩, a3, a4, a5⟩ := playReach_consistent _
    (init_consistent g g0 e d (by omega) h).1 g' hr
  exact ⟨a1, a3, a4, a2, a5⟩

/-- The access part of C11 for the interleaving in which every goroutine of the
split-off loop runs after the loop: from every state reached from `init(d)`,
`d` one of 5, 10, 20, by such playing updates, the next such playing update
returns, so that no indexed access in it is out of range or nil. -/
theorem no_access_fault_when_deferred (g g0 g' : Game) (e e' : Env) (d : Nat)
    (hd : d = 5 ∨ d = 10 ∨ d = 20) (h : g.init (d : Int) e = .ok g0)
    (hr : PlayReachDeferred { g0 with mode := ModePlay } g') (hmode : g'.mode = ModePlay)
    (he : e'.deferred) :
    ∃ g'', g'.Update e' = .ok g'' := by
  obtain ⟨hc0, hr0⟩ := init_consistent g g0 e d (by omega) h
  obtain ⟨hc, hroom⟩ := playReachDeferred_invariant _ hc0 hr0 g' hr
  obtain ⟨g'', hu, _⟩ := play_update_deferred g' e' hmode he hc hroom
  exact ⟨g'', hu⟩

/-- A run of playing updates is a path of `PlayReach`. -/
theorem playRun_reach (g0 : Game) (es : List Env) : ∀ (g g' : Game),
    PlayReach g0 g → g.playRun es = some g' → PlayReach g0 g' := by
  induction es with
  | nil =>
    intro g g' hr h
    simp only [Game.playRun] at h
    cases h
    exact hr
  | cons e es ih =>
    intro g g' hr h
    simp only [Game.playRun] at h
    split_ifs at h with hmode
    split at h
    · rename_i g1 hu
      exact ih g1 g' (PlayReach.step g g1 e hr hmode hu) h
    · cases h
    · cases h

/-- C11 (evaluation at the failing input). Level 1 is started with key 1 and
the fire key is held for 24 playing updates, in which the rocket destroys one
large and then one small asteroid, the goroutines of the split-off loop running
after the loop. The state reached is consistent: `AsteroidsInGame = 4` is the
length of the large list, `miniAsteroidsInGame = 1`, the small list has 39
slots. In the next update the rocket destroys a large asteroid; when every
goroutine of the split-off loop has incremented `miniAsteroidsInGame` before
the loop condition is evaluated again, the loop goes on to `i = 39` and indexes
the small list out of range: the update panics. With the goroutines running
after the loop the same update returns. -/
theorem C11_spawn_index_out_of_range :
    sampleLevels.Update sampleKey1 = .ok sampleLevel1 ∧
    ∃ g, PlayReach sampleLevel1 g ∧ g.mode = ModePlay ∧ g.consistent ∧
      g.AsteroidsInGame = 4 ∧ g.miniAsteroidsInGame = 1 ∧
      g.miniAsteroids.asteroidsList.length = 39 ∧
      g.Update sampleFireRace = .panic ∧
      (g.Update sampleFire).toOption.isSome = true := by
  have hstart : sampleLevels.Update sampleKey1 = .ok sampleLevel1 := by decide!
  have hinit : sampleLevels.init ((5 : Nat) : Int) sampleKey1 =
      .ok { sampleLevel1 with mode := ModeLevels } := by decide!
  have hrun : Option.map
      (fun g => (g.mode, g.AsteroidsInGame, g.miniAsteroidsInGame,
        g.miniAsteroids.asteroidsList.length))
      (sampleLevel1.playRun (List.replicate 24 sampleFire)) =
      some (ModePlay, 4, 1, 39) := by decide!
  have hrace : Option.map (fun g => g.Update sampleFireRace)
      (sampleLevel1.playRun (List.replicate 24 sampleFire)) = some .panic := by decide!
  have hdef : Option.map (fun g => (g.Update sampleFire).toOption.isSome)
      (sampleLevel1.playRun (List.replicate 24 sampleFire)) = some true := by decide!
  refine ⟨hstart, ?_⟩
  cases hg : sampleLevel1.playRun (List.replicate 24 sampleFire) with
  | none => rw [hg] at hrun; cases hrun
  | some g =>
    rw [hg] at hrun hrace hdef
    simp only [Option.map_some', Option.some.injEq, Prod.mk.injEq] at hrun hrace hdef
    obtain ⟨h1, h2, h3, h4⟩ := hrun
    have hreach := playRun_reach sampleLevel1 _ sampleLevel1 g PlayReach.start hg
    have hcons := playReach_consistent sampleLevel1
      (init_consistent sampleLevels _ sampleKey1 5 (by decide) hinit).1 g hreach
    exact ⟨g, hreach, h1, hcons, h2, h3, h4, hrace, hdef⟩

/-! ## C5: the loss transition -/

/-- Playing updates from a state of the running program lead to states of the
running program. -/
theorem reachable_of_playReach (g0 : Game) (h0 : Reachable g0) :
    ∀ g, PlayReach g0 g → Reachable g := by
  intro g hr
  induction hr with
  | start => exact h0
  | step g g' e _ _ hu ih => exact Reachable.step g g' e ih hu

/-- The program reaches `sampleLevel1`: the fire key on the start screen, then
key 1 on the level-select screen. -/
theorem sampleLevel1_reachable : Reachable sampleLevel1 := by
  have h1 : Game.initial.Update sampleFire = .ok sampleLevels := by decide!
  have h2 : sampleLevels.Update sampleKey1 = .ok sampleLevel1 := by decide!
  exact Reachable.step _ _ _ (Reachable.step _ _ _ Reachable.start h1) h2

/-- The running program is never in `sampleNoHealth`, a playing state without
health. There the win check would overwrite the loss: the update from it ends in
`ModeWon`. This is why the loss transition is a statement about the states the
program reaches. -/
theorem sampleNoHealth_not_reachable :
    ¬ Reachable sampleNoHealth ∧
    Option.map Game.mode (sampleNoHealth.Update sampleEager).toOption = some ModeWon := by
  refine ⟨fun h => ?_, by decide!⟩
  have := reachable_health sampleNoHealth h (Or.inl rfl)
  exact absurd this (by decide)

/-- C5. Loss transition: for every playing update of the running program (an
update in `ModePlay` from a state the program reaches), if `playerHealth <= 0`
once the collision checks of that update have run, then the mode after that
update is `ModeOver`. -/
theorem C5_loss_transition (g g1 g' : Game) (e : Env) (hreach : Reachable g)
    (hmode : g.mode = ModePlay) (h1 : g.playCollide e = .ok g1) (hh : g1.playerHealth ≤ 0)
    (h : g.Update e = .ok g') : g'.mode = ModeOver :=
  (loss_check_outcome g g1 g' e hmode h1 hh h).2 (reachable_health g hreach (Or.inl hmode))

/-- Witness of C5: level 1 is started with key 1, the ship is steered up for 12
updates and left alone for 18 more, in which the five large asteroids pass over
it. The state reached is one of the running program, in `ModePlay` with 5 health
points; in the next update the collision checks take them, one for each
asteroid, and the update ends in `ModeOver`. -/
theorem C5_loss_transition_witness :
    ∃ g, Reachable g ∧ g.mode = ModePlay ∧ g.playerHealth = 5 ∧
      Option.map Game.playerHealth (g.playCollide sampleIdle).toOption = some 0 ∧
      Option.map Game.mode (g.Update sampleIdle).toOption = some ModeOver := by
  have hrun : Option.map
      (fun g => (g.mode, g.playerHealth,
        Option.map Game.playerHealth (g.playCollide sampleIdle).toOption,
        (g.Update sampleIdle).toOption.isSome))
      (sampleLevel1.playRun (List.replicate 12 sampleUp ++ List.replicate 18 sampleIdle)) =
      some (ModePlay, 5, some 0, true) := by decide!
  cases hg : sampleLevel1.playRun (List.replicate 12 sampleUp ++ List.replicate 18 sampleIdle)
    with
  | none => rw [hg] at hrun; cases hrun
  | some g =>
    rw [hg] at hrun
    simp only [Option.map_some', Option.some.injEq, Prod.mk.injEq] at hrun
    obtain ⟨hmode, hhealth, hcol, hupd⟩ := hrun
    have hreach : Reachable g := reachable_of_playReach sampleLevel1 sampleLevel1_reachable g
      (playRun_reach sampleLevel1 _ sampleLevel1 g PlayReach.start hg)
    refine ⟨g, hreach, hmode, hhealth, hcol, ?_⟩
    cases hc : g.playCollide sampleIdle with
    | ok g1 =>
      rw [hc] at hcol
      have hh : g1.playerHealth = 0 := by simpa [Outcome.toOption] using hcol
      cases hu : g.Update sampleIdle with
      | ok g' =>
        exact congrArg some
          (C5_loss_transition g g1 g' sampleIdle hreach hmode hc (le_of_eq hh) hu)
      | exit => rw [hu] at hupd; simp [Outcome.toOption] at hupd
      | panic => rw [hu] at hupd; simp [Outcome.toOption] at hupd
    | exit => rw [hc] at hcol; simp [Outcome.toOption] at hcol
    | panic => rw [hc] at hcol; simp [Outcome.toOption] at hcol

/-! ## C12: large asteroids stay inside the play area -/

/-- One step keeps a large asteroid inside the play area. -/
theorem insideLarge_Update (s : Asteroid) (h : s.insideLarge) : s.Update.insideLarge := by
  obtain ⟨hw, hh, hx0, hx1, hy0, hy1, hvx, hvy⟩ := h
  have cw : (windowWidth : ℚ) - (s.width : ℚ) = 700 := by rw [hw]; norm_num
  have ch : (windowHeight : ℚ) - (s.height : ℚ) = 520 := by rw [hh]; norm_num
  refine ⟨by rw [Asteroid.Update_width, hw], by rw [Asteroid.Update_height, hh], ?_, ?_, ?_, ?_,
    ?_, ?_⟩
  · rw [Asteroid.Update_x, cw]
    split_ifs <;> rcases hvx with hv | hv <;> linarith
  · rw [Asteroid.Update_x, cw]
    split_ifs <;> rcases hvx with hv | hv <;> linarith
  · rw [Asteroid.Update_y, ch]
    split_ifs <;> rcases hvy with hv | hv <;> linarith
  · rw [Asteroid.Update_y, ch]
    split_ifs <;> rcases hvy with hv | hv <;> linarith
  · rw [Asteroid.Update_vx]
    split_ifs <;> rcases hvx with hv | hv <;> rw [hv] <;> norm_num
  · rw [Asteroid.Update_vy]
    split_ifs <;> rcases hvy with hv | hv <;> rw [hv] <;> norm_num

/-- Any number of steps keeps a large asteroid inside the play area. -/
theorem insideLarge_UpdateN (s : Asteroid) (h : s.insideLarge) (n : Nat) :
    (s.UpdateN n).insideLarge := by
  induction n with
  | zero => exact h
  | succ n ih => exact insideLarge_Update _ ih

/-- What one goroutine of `generateAsteroids` builds from draws that respect the
contract of `math/rand`: width 100, height 80, integer `0 <= x < 700`, integer
`0 <= y < 260`, `vx` and `vy` each `-1` or `+1`. -/
theorem newAsteroid_shape (d : GenDraw) (hd : d.valid) :
    (newAsteroid d).width = 100 ∧ (newAsteroid d).height = 80 ∧
    (newAsteroid d).x = (d.x : ℚ) ∧ 0 ≤ d.x ∧ d.x < 700 ∧
    (newAsteroid d).y = (d.y : ℚ) ∧ 0 ≤ d.y ∧ d.y < 260 ∧
    ((newAsteroid d).vx = -1 ∨ (newAsteroid d).vx = 1) ∧
    ((newAsteroid d).vy = -1 ∨ (newAsteroid d).vy = 1) := by
  obtain ⟨h1, h2, h3, h4, h5, h6, h7, h8, _, _⟩ := hd
  have hx : d.x < 700 := h2
  have hy : d.y < 260 := h4
  refine ⟨rfl, rfl, rfl, h1, hx, rfl, h3, hy, ?_, ?_⟩
  · have : d.sx = 0 ∨ d.sx = 1 := by omega
    rcases this with h | h
    · left; simp [newAsteroid, h]
    · right; simp [newAsteroid, h]
  · have : d.sy = 0 ∨ d.sy = 1 := by omega
    rcases this with h | h
    · left; simp [newAsteroid, h]
    · right; simp [newAsteroid, h]

/-- Every slot of the large list holds, after `generateAsteroids`, the asteroid
built from the draws of its goroutine. -/
theorem generateAsteroids_slot (g : Game) (e : Env) (i : Nat)
    (hi : i < g.asteroids.asteroidsList.length) :
    (generateAsteroids g e).asteroids.asteroidsList[i]? = some (some (newAsteroid (e.gen i))) := by
  simp only [generateAsteroids]
  rw [(foldl_set_range (fun i => some (newAsteroid (e.gen i))) _ _ (le_refl _)).2 i, if_pos hi]

/-- C12. Large asteroids never leave the play area: for every asteroid with
width 100, height 80, integer `0 <= x < 700`, integer `0 <= y < 260` and `vx`,
`vy` each `-1` or `+1` (what `generateAsteroids` produces) and every `n >= 0`,
after `n` steps of `Asteroid.Update` it holds that `0 <= x <= 700` and
`0 <= y <= 520`, and `vx` and `vy` are still each `-1` or `+1`. -/
theorem C12_large_asteroids_stay_inside (s : Asteroid) (xi yi : Int)
    (hw : s.width = 100) (hh : s.height = 80)
    (hx : s.x = (xi : ℚ)) (hx0 : 0 ≤ xi) (hx1 : xi < 700)
    (hy : s.y = (yi : ℚ)) (hy0 : 0 ≤ yi) (hy1 : yi < 260)
    (hvx : s.vx = -1 ∨ s.vx = 1) (hvy : s.vy = -1 ∨ s.vy = 1) (n : Nat) :
    0 ≤ (s.UpdateN n).x ∧ (s.UpdateN n).x ≤ 700 ∧
    0 ≤ (s.UpdateN n).y ∧ (s.UpdateN n).y ≤ 520 ∧
    ((s.UpdateN n).vx = -1 ∨ (s.UpdateN n).vx = 1) ∧
    ((s.UpdateN n).vy = -1 ∨ (s.UpdateN n).vy = 1) := by
  have h0 : s.insideLarge := by
    refine ⟨hw, hh, ?_, ?_, ?_, ?_, hvx, hvy⟩
    · rw [hx]; exact_mod_cast hx0
    · rw [hx]; exact_mod_cast (le_of_lt hx1)
    · rw [hy]; exact_mod_cast hy0
    · rw [hy]
      have : yi ≤ 520 := by omega
      exact_mod_cast this
  obtain ⟨_, _, a1, a2, a3, a4, a5, a6⟩ := insideLarge_UpdateN s h0 n
  exact ⟨a1, a2, a3, a4, a5, a6⟩

/-- Witness of C12: the asteroid generated at `(699, 259)` with velocity
`(+1, +1)` is at `x = 700` after one step, the largest value the bound allows,
and inside the play area after 300 steps. -/
theorem C12_large_asteroids_stay_inside_witness :
    (sampleEdge.UpdateN 1).x = 700 ∧
    (0 ≤ (sampleEdge.UpdateN 300).x ∧ (sampleEdge.UpdateN 300).x ≤ 700 ∧
      0 ≤ (sampleEdge.UpdateN 300).y ∧ (sampleEdge.UpdateN 300).y ≤ 520 ∧
      ((sampleEdge.UpdateN 300).vx = -1 ∨ (sampleEdge.UpdateN 300).vx = 1) ∧
      ((sampleEdge.UpdateN 300).vy = -1 ∨ (sampleEdge.UpdateN 300).vy = 1)) :=
  ⟨by decide!, C12_large_asteroids_stay_inside sampleEdge 699 259 rfl rfl (by decide!)
    (by decide) (by decide) (by decide!) (by decide) (by decide) (by decide!) (by decide!) 300⟩

end GoAsteroids
